import Mathlib

/-!
# Chess platform server: position generator and session handlers

A shallow embedding of `src/server.js`: the Chess960 back-rank generator
(`generateChess960Position`) and the socket handlers that mutate the session
registry (`joinGame`, `makeMove`, `resign`, `disconnect`, ...), followed by the
properties proved about them.

Conventions of the embedding:
* a JavaScript value that may be `undefined`/`null` is an `Option`;
* time stamps (`Date.now()`) and clock values are integers (milliseconds);
* the rules engine (`chess.js`) is not part of the repository: it is a
  parameter of the development (`RulesEngine`);
* an uncaught `TypeError` is `none` for the generator and the response
  `Response.threw` for a handler.
-/

namespace ChessPlatform

/-! ## Chess960 position generator -/

/-- The five piece letters written into `back_rank` (`'r'`, `'n'`, `'b'`, `'q'`, `'k'`). -/
inductive Piece where
  | r | n | b | q | k
  deriving DecidableEq

/-- The lower-case letter of a piece, as stored in the JavaScript array. -/
def Piece.toChar : Piece → Char
  | .r => 'r'
  | .n => 'n'
  | .b => 'b'
  | .q => 'q'
  | .k => 'k'

/-- One index of a JavaScript array of pieces: `none` is an empty slot (the
index is not a property of the array), `some none` a slot holding `undefined`,
`some (some p)` a slot holding the letter of `p`. -/
abbrev Slot := Option (Option Piece)

/-- The array `back_rank`. -/
abbrev BackRank := List Slot

/-- `new Array(8)`: length 8 and no element, every slot is empty. -/
def newBackRank : BackRank := List.replicate 8 none

/-- A JavaScript number as far as the generator computes with it: a natural
number, `Infinity` or `NaN`. -/
inductive Num where
  | nat (n : Nat)
  | infinity
  | nan
  deriving DecidableEq

/-- `a % b` for a natural number `b` (`x % 0`, `Infinity % b` and `NaN % b` are `NaN`). -/
def Num.mod (a : Num) (b : Nat) : Num :=
  match a with
  | .nat n => if b = 0 then .nan else .nat (n % b)
  | .infinity => .nan
  | .nan => .nan

/-- `Math.floor(a / b)` for a natural number `b` (`0 / 0` is `NaN`, `x / 0` is
`Infinity` for `x > 0`). -/
def Num.floorDiv (a : Num) (b : Nat) : Num :=
  match a with
  | .nat n => if b = 0 then (if n = 0 then .nan else .infinity) else .nat (n / b)
  | .infinity => .infinity
  | .nan => .nan

/-- `xs[i]` for a dense array `xs`: `undefined` unless `i` is one of its indices. -/
def Num.index {α : Type} (xs : List α) (i : Num) : Option α :=
  match i with
  | .nat n => xs[n]?
  | .infinity => none
  | .nan => none

/-- `const light_square_bishops = [1, 3, 5, 7]`. -/
def light_square_bishops : List Int := [1, 3, 5, 7]

/-- `const dark_square_bishops = [0, 2, 4, 6]`. -/
def dark_square_bishops : List Int := [0, 2, 4, 6]

/-- `const knight_positions = [[0, 1], ..., [3, 4]]`. -/
def knight_positions : List (Nat × Nat) :=
  [(0, 1), (0, 2), (0, 3), (0, 4),
   (1, 2), (1, 3), (1, 4),
   (2, 3), (2, 4),
   (3, 4)]

/-- `array.map(f)` with `f` given the element and its index:
`Array.prototype.map` calls `f` only for the indices the array has, an empty
slot stays an empty slot. -/
def arrayMap {α β : Type} (f : α → Nat → β) (xs : List (Option α)) : List (Option β) :=
  xs.enum.map fun (ix : Nat × Option α) => ix.2.map fun x => f x ix.1

/-- `array.filter(p)`: `Array.prototype.filter` visits only the indices the
array has and returns a dense array. -/
def arrayFilter {β : Type} (p : β → Bool) (xs : List (Option β)) : List β :=
  xs.filterMap fun x => x.filter p

/-- `back_rank.map((p, i) => p === undefined ? i : -1).filter(i => i >= 0)`. -/
def emptySquares (back_rank : BackRank) : List Int :=
  arrayFilter (fun i => decide (i ≥ 0))
    (arrayMap (fun p i => if p = none then (i : Int) else -1) back_rank)

/-- `back_rank[i] = piece` where `i` was read from a table: for `i` undefined
the assignment creates the property `"undefined"` and no slot changes (the
tables hold indices below 8 only, so the array is never extended). -/
def setSquare (back_rank : BackRank) (i : Option Int) (piece : Piece) : BackRank :=
  match i with
  | some i => if 0 ≤ i then back_rank.set i.toNat (some (some piece)) else back_rank
  | none => back_rank

/-- `back_rank.join('')`: empty and undefined slots contribute the empty string. -/
def joinBackRank (back_rank : BackRank) : String :=
  String.mk (back_rank.filterMap fun slot => (slot.bind id).map Piece.toChar)

/-- The object `{ fen, positionNumber }` returned by the generator. -/
structure Chess960Position where
  fen : String
  positionNumber : Nat

/-- The FEN string built from a back rank (lines 74-76). -/
def fenOfBackRank (back_rank : BackRank) : String :=
  joinBackRank back_rank ++ "/pppppppp/8/8/8/8/PPPPPPPP/" ++
    (joinBackRank back_rank).toUpper ++ " w KQkq - 0 1"

/-- The statements of `generateChess960Position` that fill the array (lines
36-71), run on the array `back_rank` for an explicit natural-number index;
`none` when the destructuring of `knight_positions[n]` throws a `TypeError`
because that entry is `undefined`. -/
def placePieces (back_rank : BackRank) (positionNumber : Nat) : Option BackRank :=
  let n := Num.nat positionNumber
  -- Bishop on light square
  let b1_index := n.mod 4
  let back_rank := setSquare back_rank (Num.index light_square_bishops b1_index) Piece.b
  let n := n.floorDiv 4
  -- Bishop on dark square
  let b2_index := n.mod 4
  let back_rank := setSquare back_rank (Num.index dark_square_bishops b2_index) Piece.b
  let n := n.floorDiv 4
  -- Queen
  let empty_squares_1 := emptySquares back_rank
  let q_index := n.mod empty_squares_1.length
  let back_rank := setSquare back_rank (Num.index empty_squares_1 q_index) Piece.q
  let n := n.floorDiv empty_squares_1.length
  -- Knights
  let empty_squares_2 := emptySquares back_rank
  match Num.index knight_positions n with
  | none => none
  | some (n1_idx, n2_idx) =>
    let back_rank := setSquare back_rank empty_squares_2[n1_idx]? Piece.n
    let back_rank := setSquare back_rank empty_squares_2[n2_idx]? Piece.n
    -- Rook, King, Rook in remaining squares
    let empty_squares_3 := emptySquares back_rank
    let back_rank := setSquare back_rank empty_squares_3[0]? Piece.r
    let back_rank := setSquare back_rank empty_squares_3[1]? Piece.k
    let back_rank := setSquare back_rank empty_squares_3[2]? Piece.r
    some back_rank

/-- `generateChess960Position(positionNumber)` for an explicit natural-number
index (lines 23-79): the array is `new Array(8)`, and the FEN is built from it
once the pieces are placed. -/
def generateChess960Position (positionNumber : Nat) : Option Chess960Position :=
  (placePieces newBackRank positionNumber).map fun back_rank =>
    { fen := fenOfBackRank back_rank, positionNumber := positionNumber }

/-- An array of eight slots that all hold `undefined`, as
`new Array(8).fill(undefined)` would build it. -/
def filledBackRank : BackRank := List.replicate 8 (some none)

/-- An array none of whose slots holds `undefined`: every index is either an
empty slot or a letter. -/
def NoUndefined (back_rank : BackRank) : Prop :=
  ∀ slot ∈ back_rank, slot ≠ some none

/-! ### The arrangement as the specification words it -/

/-- The pairs `(i, j)` with `0 ≤ i < j ≤ 4`, in lexicographic order. -/
def lexPairs : List (Nat × Nat) :=
  (List.range 5).flatMap fun i => ((List.range 5).filter fun j => i < j).map fun j => (i, j)

/-- The back rank described by the five steps of the specification, written
from its words: the piece on each of the files `0..7`. -/
def specBackRank (n : Nat) : Option (List Piece) := do
  let bishop1 := 2 * (n % 4) + 1
  let bishop2 := 2 * ((n / 4) % 4)
  let free6 := (List.range 8).filter fun f => f ≠ bishop1 ∧ f ≠ bishop2
  let queen ← free6[(n / 16) % 6]?
  let free5 := free6.filter fun f => f ≠ queen
  let pair ← lexPairs[n / 96]?
  let knight1 ← free5[pair.1]?
  let knight2 ← free5[pair.2]?
  match free5.filter fun f => f ≠ knight1 ∧ f ≠ knight2 with
  | [rook1, _king, rook2] =>
    some ((List.range 8).map fun f =>
      if f = bishop1 ∨ f = bishop2 then Piece.b
      else if f = queen then Piece.q
      else if f = knight1 ∨ f = knight2 then Piece.n
      else if f = rook1 ∨ f = rook2 then Piece.r
      else Piece.k)
  | _ => none

/-! ## Sessions: data model -/

/-- A side: `'white'` / `'black'` (the rules engine writes them `'w'` / `'b'`). -/
inductive Color where
  | white | black
  deriving DecidableEq

/-- `color === 'white' ? 'black' : 'white'`. -/
def Color.other : Color → Color
  | .white => .black
  | .black => .white

/-- A connection handle (`socket.id`). -/
abbrev SocketId := String

/-- A room code (key of the `games` map). -/
abbrev GameId := String

/-- What `chess.move(m)` does: it returns a truthy move object (the engine is
then in state `next`), returns a falsy value, or throws; a refused move leaves
the engine's state as it was. -/
inductive MoveOutcome (P R : Type) where
  | accepted (next : P) (move : R)
  | null
  | threw (message : String)

/-- The part of `chess.js` the server calls, over engine states `P`, move
requests `M` and move descriptors `R`. The library is not part of the
repository and is a parameter of every definition below. -/
structure RulesEngine (P M R : Type) where
  turn : P → Color
  move : P → M → MoveOutcome P R
  fen : P → String
  pgn : P → String
  inCheck : P → Bool
  isGameOver : P → Bool
  isCheckmate : P → Bool
  isDraw : P → Bool
  isStalemate : P → Bool
  isThreefoldRepetition : P → Bool
  isInsufficientMaterial : P → Bool

/-- An entry of `game.players`: `{ id, name }`. -/
structure Player where
  id : SocketId
  name : String
  deriving DecidableEq

/-- The object `game.players`; `createGame` starts it as `{}`. -/
structure Players where
  white : Option Player
  black : Option Player

/-- The object `game.clocks`, in milliseconds. -/
structure Clocks where
  white : Int
  black : Int

/-- `clocks[color]`. -/
def Clocks.get (c : Clocks) : Color → Int
  | .white => c.white
  | .black => c.black

/-- `clocks[color] = v`. -/
def Clocks.set (c : Clocks) (color : Color) (v : Int) : Clocks :=
  match color with
  | .white => { c with white := v }
  | .black => { c with black := v }

/-- The object `game.result`: `{ winner, reason }`, `winner` being `null` for a draw. -/
structure Result where
  winner : Option Color
  reason : String

/-- The object `game.config`. -/
structure Config where
  variant : String
  timeControl : String
  timeLimit : Int
  increment : Int
  rated : Bool

/-- The object `game.startPosition`. -/
structure StartPosition where
  fen : String
  positionNumber : Option Nat
  variant : String

/-- An entry of `game.moveHistory`: `{ move, fen, timestamp }`. -/
structure HistoryEntry (R : Type) where
  move : R
  fen : String
  timestamp : Int

/-- A session: the object stored in the `games` map. `spectators` is a
JavaScript `Set`, kept here as a duplicate-free list in insertion order. -/
structure Game (P R : Type) where
  id : GameId
  chess : P
  players : Players
  spectators : List SocketId
  config : Config
  startPosition : StartPosition
  moveHistory : List (HistoryEntry R)
  clocks : Clocks
  lastMoveTime : Option Int
  gameStarted : Bool
  gameOver : Bool
  result : Option Result
  createdAt : Int

/-- The snapshot built by `getGameState(game)` (lines 370-388). -/
structure GameState (R : Type) where
  id : GameId
  fen : String
  pgn : String
  turn : Color
  moveHistory : List (HistoryEntry R)
  players : Players
  config : Config
  startPosition : StartPosition
  clocks : Clocks
  gameOver : Bool
  result : Option Result
  inCheck : Bool
  isCheckmate : Bool
  isDraw : Bool
  isStalemate : Bool

/-- What a handler hands to its `callback`; `silent` for a handler that has
none, `threw` when the handler stops on an uncaught `TypeError`. -/
inductive Response (R : Type) where
  | error (message : String)
  | joined (color : String) (gameState : GameState R)
  | moved (move : R)
  | state (gameState : Option (GameState R))
  | silent
  | threw

/-- The map `games`, in insertion order. -/
abbrev Registry (P R : Type) := List (GameId × Game P R)

/-- `games.get(id)`. -/
def getGame {P R : Type} : Registry P R → GameId → Option (Game P R)
  | [], _ => none
  | (k, g) :: rest, id => if k = id then some g else getGame rest id

/-- The registry after the object found by `games.get(id)` has been mutated
into `game` (handlers mutate the stored object in place). -/
def putGame {P R : Type} : Registry P R → GameId → Game P R → Registry P R
  | [], _, _ => []
  | (k, g) :: rest, id, game =>
    if k = id then (k, game) :: rest else (k, g) :: putGame rest id game

/-- `set.add(x)`. -/
def setAdd (s : List SocketId) (x : SocketId) : List SocketId :=
  if x ∈ s then s else s ++ [x]

/-- `set.delete(x)`. -/
def setDelete (s : List SocketId) (x : SocketId) : List SocketId :=
  s.filter fun y => y ≠ x

/-- `name || fallback` for an optional string (`undefined` and `''` are falsy). -/
def orDefault (name : Option String) (fallback : String) : String :=
  match name with
  | some s => if s = "" then fallback else s
  | none => fallback

/-- The side a connection occupies in a session, read off `game.players` the
way the handlers do: `game.players.white?.id === socket.id` is tested first
(the derivation `white.id === socket.id ? 'white' : 'black'`), so a connection
that sits on both seats counts as white; `none` for a connection on neither
seat. -/
def sideOf {P R : Type} (game : Game P R) (socketId : SocketId) : Option Color :=
  if game.players.white.map Player.id = some socketId then some Color.white
  else if game.players.black.map Player.id = some socketId then some Color.black
  else none

/-! ## Sessions: handlers -/

section Handlers

variable {P M R : Type}

/-- `getGameState(game)` (lines 370-388). -/
def getGameState (E : RulesEngine P M R) (game : Game P R) : GameState R :=
  { id := game.id
    fen := E.fen game.chess
    pgn := E.pgn game.chess
    turn := E.turn game.chess
    moveHistory := game.moveHistory
    players := game.players
    config := game.config
    startPosition := game.startPosition
    clocks := game.clocks
    gameOver := game.gameOver
    result := game.result
    inCheck := E.inCheck game.chess
    isCheckmate := E.isCheckmate game.chess
    isDraw := E.isDraw game.chess
    isStalemate := E.isStalemate game.chess }

/-- The body of the `joinGame` handler once the session is found (lines
175-205). The `gameStart` emission that follows the callback changes no
session state and is left out. -/
def joinGameSession (E : RulesEngine P M R) (game : Game P R) (socketId : SocketId)
    (playerName : Option String) (now : Int) : Game P R × Response R :=
  if game.gameStarted then
    -- Join as spectator
    let game := { game with spectators := setAdd game.spectators socketId }
    (game, .joined "spectator" (getGameState E game))
  else if game.players.black.isNone then
    let game := { game with
      players := { game.players with
        black := some { id := socketId, name := orDefault playerName "Player 2" } }
      gameStarted := true
      lastMoveTime := some now }
    (game, .joined "black" (getGameState E game))
  else
    (game, .error "Game is full")

/-- The payload of a `joinGame` request. -/
structure JoinData where
  gameId : GameId
  playerName : Option String

/-- The `joinGame` handler (lines 167-206); `now` is the reading of `Date.now()`. -/
def joinGame (E : RulesEngine P M R) (games : Registry P R) (socketId : SocketId)
    (data : JoinData) (now : Int) : Registry P R × Response R :=
  match getGame games data.gameId with
  | none => (games, .error "Game not found")
  | some game =>
    let out := joinGameSession E game socketId data.playerName now
    (putGame games data.gameId out.1, out.2)

/-- The three successive readings of `Date.now()` in one run of the `makeMove`
handler: for the debit (line 234), for the history entry (line 261) and for
`lastMoveTime` (line 264). -/
structure MoveClock where
  debit : Int
  stamp : Int
  last : Int

/-- The clock update of `makeMove` (lines 232-251). The flag is `true` when the
handler returns with `'Time ran out'`. `if (game.lastMoveTime)` is JavaScript
truthiness: `null` and `0` skip the update. -/
def updateClock (game : Game P R) (currentTurn : Color) (now : Int) : Game P R × Bool :=
  match game.lastMoveTime with
  | none => (game, false)
  | some lastMoveTime =>
    if lastMoveTime = 0 then (game, false)
    else
      let elapsed := now - lastMoveTime
      let currentColor := currentTurn
      let game := { game with
        clocks := game.clocks.set currentColor (game.clocks.get currentColor - elapsed) }
      if game.clocks.get currentColor ≤ (0 : Int) then
        ({ game with
            gameOver := true
            result := some { winner := some currentColor.other, reason := "timeout" } }, true)
      else
        -- Add increment
        ({ game with
            clocks := game.clocks.set currentColor
              (game.clocks.get currentColor + game.config.increment * 1000) }, false)

/-- The result chosen once `chess.isGameOver()` holds (lines 270-283); when no
branch applies `game.result` keeps its value. -/
def gameOverResult (E : RulesEngine P M R) (chess : P) (result : Option Result) :
    Option Result :=
  if E.isCheckmate chess then
    some { winner := some (if E.turn chess = Color.white then Color.black else Color.white)
           reason := "checkmate" }
  else if E.isDraw chess then some { winner := none, reason := "draw" }
  else if E.isStalemate chess then some { winner := none, reason := "stalemate" }
  else if E.isThreefoldRepetition chess then some { winner := none, reason := "repetition" }
  else if E.isInsufficientMaterial chess then
    some { winner := none, reason := "insufficient_material" }
  else result

/-- The `try` block of `makeMove` (lines 253-302). -/
def tryMove (E : RulesEngine P M R) (game : Game P R) (move : M) (now : MoveClock) :
    Game P R × Response R :=
  match E.move game.chess move with
  | .accepted next mv =>
    let game := { game with
      chess := next
      moveHistory := game.moveHistory ++ [{ move := mv, fen := E.fen next, timestamp := now.stamp }]
      lastMoveTime := some now.last }
    -- Check for game over
    let game :=
      if E.isGameOver next then
        { game with gameOver := true, result := gameOverResult E next game.result }
      else game
    (game, .moved mv)
  | .null => (game, .error "Illegal move")
  | .threw message => (game, .error message)

/-- The body of the `makeMove` handler once the session is found (lines 217-302). -/
def makeMoveSession (E : RulesEngine P M R) (game : Game P R) (socketId : SocketId)
    (move : M) (now : MoveClock) : Game P R × Response R :=
  if game.gameOver then (game, .error "Game is over")
  else
    -- Verify it's the player's turn
    let currentTurn := E.turn game.chess
    match game.players.white with
    | none => (game, .threw)
    | some white =>
      let playerColor := if white.id = socketId then Color.white else Color.black
      if (currentTurn = Color.white ∧ playerColor ≠ Color.white) ∨
          (currentTurn = Color.black ∧ playerColor ≠ Color.black) then
        (game, .error "Not your turn")
      else
        -- Update clock
        match updateClock game currentTurn now.debit with
        | (game, true) => (game, .error "Time ran out")
        | (game, false) => tryMove E game move now

/-- The payload of a `makeMove` request. -/
structure MoveData (M : Type) where
  gameId : GameId
  move : M

/-- The `makeMove` handler (lines 209-303). -/
def makeMove (E : RulesEngine P M R) (games : Registry P R) (socketId : SocketId)
    (data : MoveData M) (now : MoveClock) : Registry P R × Response R :=
  match getGame games data.gameId with
  | none => (games, .error "Game not found")
  | some game =>
    let out := makeMoveSession E game socketId data.move now
    (putGame games data.gameId out.1, out.2)

/-- The body of the `resign` handler once the session is found (lines 308-316). -/
def resignSession (game : Game P R) (socketId : SocketId) : Game P R × Response R :=
  if !game.gameOver then
    match game.players.white with
    | none => (game, .threw)
    | some white =>
      let playerColor := if white.id = socketId then Color.white else Color.black
      ({ game with
          gameOver := true
          result := some { winner := some playerColor.other, reason := "resignation" } },
        .silent)
  else (game, .silent)

/-- The `resign` handler (lines 306-317). -/
def resign (games : Registry P R) (socketId : SocketId) (gameId : GameId) :
    Registry P R × Response R :=
  match getGame games gameId with
  | none => (games, .silent)
  | some game =>
    let out := resignSession game socketId
    (putGame games gameId out.1, out.2)

/-- The `offerDraw` handler (lines 320-325): it only relays `drawOffered`. -/
def offerDraw (games : Registry P R) (_socketId : SocketId) (_gameId : GameId) :
    Registry P R × Response R :=
  (games, .silent)

/-- The body of the `acceptDraw` handler once the session is found (lines 330-334). -/
def acceptDrawSession (game : Game P R) : Game P R :=
  if !game.gameOver then
    { game with gameOver := true, result := some { winner := none, reason := "agreement" } }
  else game

/-- The `acceptDraw` handler (lines 328-335). -/
def acceptDraw (games : Registry P R) (_socketId : SocketId) (gameId : GameId) :
    Registry P R × Response R :=
  match getGame games gameId with
  | none => (games, .silent)
  | some game => (putGame games gameId (acceptDrawSession game), .silent)

/-- The `getGameState` handler (lines 338-345). -/
def getGameStateRequest (E : RulesEngine P M R) (games : Registry P R) (gameId : GameId) :
    Registry P R × Response R :=
  (games, .state ((getGame games gameId).map (getGameState E)))

/-- One iteration of the `games.forEach` of the `disconnect` handler (lines
353-364); `none` when `game.players.white.id` throws. -/
def disconnectSession (game : Game P R) (socketId : SocketId) : Option (Game P R) :=
  if game.players.white.map Player.id = some socketId ∨
      game.players.black.map Player.id = some socketId then
    if !game.gameOver then
      match game.players.white with
      | none => none
      | some white =>
        let playerColor := if white.id = socketId then Color.white else Color.black
        some { game with
          gameOver := true
          result := some { winner := some playerColor.other, reason := "abandonment" }
          spectators := setDelete game.spectators socketId }
    else some { game with spectators := setDelete game.spectators socketId }
  else some { game with spectators := setDelete game.spectators socketId }

/-- The `disconnect` handler (lines 348-366): the iterations run in insertion
order and an uncaught exception ends the loop. -/
def disconnect : Registry P R → SocketId → Registry P R × Response R
  | [], _ => ([], .silent)
  | (k, game) :: rest, socketId =>
    match disconnectSession game socketId with
    | none => ((k, game) :: rest, .threw)
    | some game =>
      let out := disconnect rest socketId
      ((k, game) :: out.1, out.2)

/-- What one iteration of the `disconnect` loop does to a session: the
connection is no longer among the spectators, every other spectator stays (and
nobody is added), and the rest of the session is as the handler leaves it. -/
def DisconnectEffect (socketId : SocketId) (old new : Game P R) : Prop :=
  socketId ∉ new.spectators ∧
  (∀ other, other ∈ new.spectators ↔ other ∈ old.spectators ∧ other ≠ socketId) ∧
  List.Sublist new.spectators old.spectators ∧
  new.spectators = setDelete old.spectators socketId ∧
  new.chess = old.chess ∧ new.clocks = old.clocks ∧ new.moveHistory = old.moveHistory ∧
  new.players = old.players ∧ new.gameStarted = old.gameStarted ∧
  (∀ side, old.gameOver = false → sideOf old socketId = some side →
    new.gameOver = true ∧
    new.result = some { winner := some side.other, reason := "abandonment" }) ∧
  (old.gameOver = true → new.gameOver = true ∧ new.result = old.result) ∧
  (sideOf old socketId = none → new.gameOver = old.gameOver ∧ new.result = old.result)

/-- One run of the periodic cleanup (lines 391-401) at `now`. -/
def cleanup (games : Registry P R) (now : Int) : Registry P R :=
  games.filter fun entry =>
    !(decide (now - entry.2.createdAt > 24 * 60 * 60 * 1000) && entry.2.gameOver)

/-! ### Requests -/

/-- A request that reaches the server for an existing connection. -/
inductive Request (M : Type) where
  | joinGame (socketId : SocketId) (data : JoinData) (now : Int)
  | makeMove (socketId : SocketId) (data : MoveData M) (now : MoveClock)
  | resign (socketId : SocketId) (gameId : GameId)
  | offerDraw (socketId : SocketId) (gameId : GameId)
  | acceptDraw (socketId : SocketId) (gameId : GameId)
  | getGameState (gameId : GameId)
  | disconnect (socketId : SocketId)

/-- The handler of a request. -/
def handle (E : RulesEngine P M R) (games : Registry P R) :
    Request M → Registry P R × Response R
  | .joinGame socketId data now => joinGame E games socketId data now
  | .makeMove socketId data now => makeMove E games socketId data now
  | .resign socketId gameId => resign games socketId gameId
  | .offerDraw socketId gameId => offerDraw games socketId gameId
  | .acceptDraw socketId gameId => acceptDraw games socketId gameId
  | .getGameState gameId => getGameStateRequest E games gameId
  | .disconnect socketId => disconnect games socketId

/-- The registry after a list of requests, each handled to completion in order. -/
def handleAll (E : RulesEngine P M R) (games : Registry P R) :
    List (Request M) → Registry P R
  | [] => games
  | req :: rest => handleAll E (handle E games req).1 rest

/-! ### Runs of move requests -/

/-- A `makeMove` request as it reaches a session: who sends it, the move, and
the clock readings of that run of the handler. -/
structure MoveRequest (M : Type) where
  socketId : SocketId
  move : M
  now : MoveClock

/-- The session after a list of `makeMove` requests, handled in order. -/
def makeMoves (E : RulesEngine P M R) (game : Game P R) : List (MoveRequest M) → Game P R
  | [] => game
  | r :: rest => makeMoves E (makeMoveSession E game r.socketId r.move r.now).1 rest

/-- The registry after a list of `makeMove` requests for the room `gameId`. -/
def makeMovesIn (E : RulesEngine P M R) (games : Registry P R) (gameId : GameId) :
    List (MoveRequest M) → Registry P R
  | [] => games
  | r :: rest =>
    makeMovesIn E (makeMove E games r.socketId { gameId := gameId, move := r.move } r.now).1
      gameId rest

/-- The moves applied in order directly to the rules engine: the final engine
state and the history entries (move descriptor, resulting FEN) of the moves,
`none` as soon as the engine refuses one. -/
def replay (E : RulesEngine P M R) : P → List M → Option (P × List (R × String))
  | p, [] => some (p, [])
  | p, m :: rest =>
    match E.move p m with
    | .accepted next mv =>
      match replay E next rest with
      | some (final, log) => some (final, (mv, E.fen next) :: log)
      | none => none
    | _ => none

/-- Whether the engine accepted the move. -/
def MoveOutcome.isAccepted {P R : Type} : MoveOutcome P R → Bool
  | .accepted _ _ => true
  | _ => false

/-- The request is sent by the side to move, the engine accepts its move, and it
arrives before the mover's clock has run out (nothing is debited while
`lastMoveTime` is unset). -/
def Playable (E : RulesEngine P M R) (game : Game P R) (r : MoveRequest M) : Prop :=
  sideOf game r.socketId = some (E.turn game.chess) ∧
  (E.move game.chess r.move).isAccepted = true ∧
  (∀ t ∈ game.lastMoveTime, t ≠ 0 → r.now.debit - t < game.clocks.get (E.turn game.chess))

instance (E : RulesEngine P M R) (game : Game P R) (r : MoveRequest M) :
    Decidable (Playable E game r) := by
  unfold Playable; infer_instance

/-- Every request of the run is `Playable` in the session as it is when the
request arrives. -/
def PlayableRun (E : RulesEngine P M R) : Game P R → List (MoveRequest M) → Prop
  | _, [] => True
  | game, r :: rest =>
    Playable E game r ∧ PlayableRun E (makeMoveSession E game r.socketId r.move r.now).1 rest

/-- The session is not finished when any request of the run arrives. -/
def LiveRun (E : RulesEngine P M R) : Game P R → List (MoveRequest M) → Prop
  | _, [] => True
  | game, r :: rest =>
    game.gameOver = false ∧ LiveRun E (makeMoveSession E game r.socketId r.move r.now).1 rest

end Handlers

/-! ## A small rules engine and sessions for the examples -/

/-- A toy engine: the state is the number of half-moves played, white moves at
even states; move `0` is refused with a falsy value, move `1` throws, any other
move is accepted; from the fourth half-move on the position is a draw (the
engine goes on accepting moves, as `chess.js` does after a repetition). -/
def demoEngine : RulesEngine Nat Nat Nat where
  turn p := if p % 2 = 0 then Color.white else Color.black
  move p m :=
    if m = 0 then MoveOutcome.null
    else if m = 1 then MoveOutcome.threw "Invalid move"
    else MoveOutcome.accepted (p + 1) m
  fen p := if p = 0 then "start" else if p = 1 then "after-1" else "later"
  pgn _ := ""
  inCheck _ := false
  isGameOver p := decide (4 ≤ p)
  isCheckmate _ := false
  isDraw p := decide (4 ≤ p)
  isStalemate _ := false
  isThreefoldRepetition p := decide (4 ≤ p)
  isInsufficientMaterial _ := false

/-- A session as `createGame` leaves it, white seated by connection `"w"`. -/
def demoPending : Game Nat Nat :=
  { id := "1234"
    chess := 0
    players := { white := some { id := "w", name := "Player 1" }, black := none }
    spectators := []
    config := { variant := "standard", timeControl := "blitz", timeLimit := 300,
                increment := 5, rated := false }
    startPosition := { fen := "start", positionNumber := none, variant := "standard" }
    moveHistory := []
    clocks := { white := 300000, black := 300000 }
    lastMoveTime := none
    gameStarted := false
    gameOver := false
    result := none
    createdAt := 1000 }

/-- The session `demoPending` after connection `"b"` joined at time `2000`. -/
def demoActive : Game Nat Nat :=
  { demoPending with
    players := { white := some { id := "w", name := "Player 1" },
                 black := some { id := "b", name := "Player 2" } }
    lastMoveTime := some 2000
    gameStarted := true }

/-- The session `demoActive` with 500 ms left on white's clock and no increment. -/
def demoLowClock : Game Nat Nat :=
  { demoActive with
    config := { demoActive.config with increment := 0 }
    clocks := { white := 500, black := 300000 } }

/-- The session `demoActive` after white resigned. -/
def demoResigned : Game Nat Nat :=
  { demoActive with
    gameOver := true
    result := some { winner := some Color.black, reason := "resignation" } }

/-- The session `demoActive` three half-moves into the game. -/
def demoLate : Game Nat Nat :=
  { demoActive with chess := 3 }

/-- Two requests: white then black, each a second after the previous move. -/
def demoRun : List (MoveRequest Nat) :=
  [{ socketId := "w", move := 2, now := ⟨3000, 3001, 3002⟩ },
   { socketId := "b", move := 3, now := ⟨4000, 4001, 4002⟩ }]

/-- One request by white. -/
def demoRunWhite : List (MoveRequest Nat) :=
  [{ socketId := "w", move := 2, now := ⟨3000, 3001, 3002⟩ }]

/-- Two requests: black then white. -/
def demoRunLate : List (MoveRequest Nat) :=
  [{ socketId := "b", move := 2, now := ⟨3000, 3001, 3002⟩ },
   { socketId := "w", move := 2, now := ⟨4000, 4001, 4002⟩ }]

/-- A registry holding `demoPending` alone. -/
def demoLobby : Registry Nat Nat :=
  [("1234", demoPending)]

/-- Requests sent after the game started: a move, a draw offer, a disconnect
of a stranger, a resignation. -/
def demoTraffic : List (Request Nat) :=
  [.makeMove "w" { gameId := "1234", move := 2 } ⟨3000, 3001, 3002⟩,
   .offerDraw "b" "1234",
   .disconnect "x",
   .resign "b" "1234"]

/-- A registry holding one other room and `demoActive`. -/
def demoGames : Registry Nat Nat :=
  [("1000", { demoPending with id := "1000" }), ("1234", demoActive)]

/-- A registry of two started rooms: in `"1234"` connection `"b"` plays black and
`"x"` watches; in `"2000"` connections `"u"` and `"v"` play and `"b"` and `"x"`
watch. -/
def demoWatched : Registry Nat Nat :=
  [("1234", { demoActive with spectators := ["x"] }),
   ("2000", { demoActive with
      id := "2000"
      players := { white := some { id := "u", name := "Player 1" },
                   black := some { id := "v", name := "Player 2" } }
      spectators := ["b", "x"] })]


/-! ## Sessions: relations between states of a session -/

/-- A finished session is left as it was: `gameOver`, `result`, position, move
history and clocks. -/
def Frozen {P R : Type} (old new : Game P R) : Prop :=
  old.gameOver = true →
    new.gameOver = true ∧ new.result = old.result ∧ new.chess = old.chess ∧
    new.moveHistory = old.moveHistory ∧ new.clocks = old.clocks

/-- The session ended by agreement. -/
def Agreed {P R : Type} (game : Game P R) : Prop :=
  ∃ winner, game.result = some { winner := winner, reason := "agreement" }

/-- Whether the request is an `acceptDraw` for the room `id`. -/
def Request.isAcceptDrawFor {M : Type} (id : GameId) : Request M → Bool
  | .acceptDraw _ gameId => decide (gameId = id)
  | _ => false

/-- Whether the request is an `offerDraw`. -/
def Request.isOfferDraw {M : Type} : Request M → Bool
  | .offerDraw _ _ => true
  | _ => false

/-- From the lobby: `"b"` joins, then a connection `"x"` that holds no seat sends
`acceptDraw`; nobody has offered a draw. -/
def demoNoOffer : List (Request Nat) :=
  [.joinGame "b" { gameId := "1234", playerName := none } 2000,
   .acceptDraw "x" "1234"]

/-- The result of the session is the old one, or a new one whose reason is not
`'agreement'`. -/
def NotByAgreement {P R : Type} (old new : Game P R) : Prop :=
  new.result = old.result ∨
    ∃ winner reason, new.result = some { winner := winner, reason := reason } ∧
      reason ≠ "agreement"

/-- From `demoGames`: white moves, then `"x"` joins and is admitted as a
spectator; black is now to move. -/
def demoObserverSetup : List (Request Nat) :=
  [.makeMove "w" { gameId := "1234", move := 2 } ⟨3000, 3001, 3002⟩,
   .joinGame "x" { gameId := "1234", playerName := none } 3500]

/-- The spectator `"x"` sends a move. -/
def demoObserverMove : Request Nat :=
  .makeMove "x" { gameId := "1234", move := 7 } ⟨4002, 4003, 4004⟩

/-- A finished session created at time `999`. -/
def demoExpired : GameId × Game Nat Nat :=
  ("1000", { demoResigned with id := "1000", createdAt := 999 })

/-- A finished session created at time `1000`. -/
def demoDayOld : GameId × Game Nat Nat :=
  ("1001", { demoResigned with id := "1001", createdAt := 1000 })

/-- An unfinished session created at time `0`. -/
def demoStale : GameId × Game Nat Nat :=
  ("1002", { demoActive with id := "1002", createdAt := 0 })

/-- A registry for a cleanup at time `86401000`: `demoExpired` is then a day and
a millisecond old, `demoDayOld` exactly a day, `demoStale` older than both. -/
def demoAged : Registry Nat Nat :=
  [demoExpired, demoDayOld, demoStale]

/-- A registry holding one other room and `demoResigned`. -/
def demoFinishedGames : Registry Nat Nat :=
  [("1000", { demoPending with id := "1000" }), ("1234", demoResigned)]

/-- Requests of every kind sent to the room `"1234"`. -/
def demoAllKinds : List (Request Nat) :=
  [.joinGame "x" { gameId := "1234", playerName := none } 5000,
   .makeMove "w" { gameId := "1234", move := 2 } ⟨6000, 6001, 6002⟩,
   .resign "b" "1234",
   .offerDraw "w" "1234",
   .acceptDraw "b" "1234",
   .getGameState "1234",
   .disconnect "w"]


/-! ## Session creation -/

/-- The `config` payload of a `createGame` request; a field the client leaves
out is `none`. -/
structure CreateConfig where
  variant : Option String
  chess960Position : Option Nat
  customFen : Option String
  timeControl : Option String
  timeLimit : Option Int
  increment : Option Int
  rated : Option Bool
  playerName : Option String

/-- `x || fallback` for an optional number (`undefined`, `NaN` and `0` are falsy). -/
def orDefaultInt (x : Option Int) (fallback : Int) : Int :=
  match x with
  | some v => if v = 0 then fallback else v
  | none => fallback

/-- `Math.floor(1000 + Math.random() * 9000).toString()` for the value `r` drawn
by `Math.random()`. -/
def roomCode (r : ℚ) : GameId :=
  Nat.repr ⌊1000 + r * 9000⌋.toNat

/-- `games.has(id)`. -/
def hasGame {P R : Type} (games : Registry P R) (id : GameId) : Bool :=
  (getGame games id).isSome

/-- `games.set(id, game)`. -/
def setGame {P R : Type} (games : Registry P R) (id : GameId) (game : Game P R) :
    Registry P R :=
  if hasGame games id then putGame games id game else games ++ [(id, game)]

/-- The loop `while (games.has(gameId)) { gameId = ... }` (lines 97-99), fed with
the values `Math.random()` returns: the code it ends with and the draws left,
`none` when the draws are used up before the loop ends. -/
def freshGameId {P R : Type} (games : Registry P R) : GameId → List ℚ → Option (GameId × List ℚ)
  | gameId, [] => if hasGame games gameId then none else some (gameId, [])
  | gameId, r :: rest =>
    if hasGame games gameId then freshGameId games (roomCode r) rest
    else some (gameId, r :: rest)

/-- The engine object and the `startPosition` built by lines 101-114. `newChess`
is the constructor `new Chess(fen)` (`none` for `new Chess()`), which may throw;
for the variant `'chess960'` without an explicit index the generator draws one
(`Math.floor(Math.random() * 960)`). `none` when something throws. -/
def startOf {P M R : Type} (E : RulesEngine P M R) (newChess : Option String → Option P)
    (config : CreateConfig) (draws : List ℚ) : Option (P × StartPosition) :=
  if config.variant = some "chess960" then
    let index : Option Nat :=
      match config.chess960Position with
      | some n => some n
      | none => draws.head?.map fun r => ⌊r * 960⌋.toNat
    match index.bind generateChess960Position with
    | none => none
    | some position =>
      (newChess (some position.fen)).map fun chess =>
        (chess, { fen := position.fen, positionNumber := some position.positionNumber,
                  variant := "chess960" })
  else
    match config.customFen with
    | some fen =>
      if fen = "" then
        (newChess none).map fun chess =>
          (chess, { fen := E.fen chess, positionNumber := none, variant := "standard" })
      else
        (newChess (some fen)).map fun chess =>
          (chess, { fen := fen, positionNumber := none, variant := "custom" })
    | none =>
      (newChess none).map fun chess =>
        (chess, { fen := E.fen chess, positionNumber := none, variant := "standard" })

/-- `createGame(config)` (lines 91-143): the new session and the registry after
`games.set`. `draws` are the values returned by the successive calls of
`Math.random()` and `now` the reading of `Date.now()`; `none` when the function
does not return (an exception, or the draws are used up inside the loop). -/
def createGame {P M R : Type} (E : RulesEngine P M R) (newChess : Option String → Option P)
    (games : Registry P R) (config : CreateConfig) (draws : List ℚ) (now : Int) :
    Option (Game P R × Registry P R) :=
  match draws with
  | [] => none
  | r :: rest =>
    match freshGameId games (roomCode r) rest with
    | none => none
    | some (gameId, rest) =>
      match startOf E newChess config rest with
      | none => none
      | some (chess, startPosition) =>
        let game : Game P R :=
          { id := gameId
            chess := chess
            players := { white := none, black := none }
            spectators := []
            config :=
              { variant := orDefault config.variant "standard"
                timeControl := orDefault config.timeControl "blitz"
                timeLimit := orDefaultInt config.timeLimit 300
                increment := orDefaultInt config.increment 0
                rated := config.rated.getD false }
            startPosition := startPosition
            moveHistory := []
            clocks :=
              { white := orDefaultInt (config.timeLimit.map fun t => t * 1000) 300000
                black := orDefaultInt (config.timeLimit.map fun t => t * 1000) 300000 }
            lastMoveTime := none
            gameStarted := false
            gameOver := false
            result := none
            createdAt := now }
        some (game, setGame games gameId game)

/-- The `createGame` socket handler (lines 150-164): the session is created and
its creator seated as white; the answer carries the room code. `none` as answer
when `createGame` throws, the registry is then as before. -/
def createGameRequest {P M R : Type} (E : RulesEngine P M R)
    (newChess : Option String → Option P) (games : Registry P R) (socketId : SocketId)
    (config : CreateConfig) (draws : List ℚ) (now : Int) : Registry P R × Option GameId :=
  match createGame E newChess games config draws now with
  | none => (games, none)
  | some (game, games) =>
    (putGame games game.id
      { game with
        players := { game.players with
          white := some { id := socketId, name := orDefault config.playerName "Player 1" } } },
     some game.id)

/-- A `createGame` payload with every field left out but the time control. -/
def demoConfig : CreateConfig :=
  { variant := none, chess960Position := none, customFen := none, timeControl := none,
    timeLimit := some 600, increment := some 5, rated := none, playerName := none }

/-- The constructor of the toy engine: every position descriptor is accepted. -/
def demoNewChess : Option String → Option Nat :=
  fun _ => some 0

/-- The session `createGame` builds for `demoConfig` at time `7000` when the
first free code drawn is `"1900"`. -/
def demoCreated : Game Nat Nat :=
  { id := "1900"
    chess := 0
    players := { white := none, black := none }
    spectators := []
    config := { variant := "standard", timeControl := "blitz", timeLimit := 600,
                increment := 5, rated := false }
    startPosition := { fen := "start", positionNumber := none, variant := "standard" }
    moveHistory := []
    clocks := { white := 600000, black := 600000 }
    lastMoveTime := none
    gameStarted := false
    gameOver := false
    result := none
    createdAt := 7000 }

/-- The clock invariant: the increment is not negative, and either both clocks
are positive or the session is finished with reason `'timeout'`. -/
def ClockInvariant {P R : Type} (game : Game P R) : Prop :=
  0 ≤ game.config.increment ∧
    ((0 < game.clocks.white ∧ 0 < game.clocks.black) ∨
      (game.gameOver = true ∧
        ∃ winner, game.result = some { winner := winner, reason := "timeout" }))

/-- Requests sent to the room `"1900"` after its creation: a join, two moves in
time, and a move that arrives after black's clock has run out. -/
def demoCreatedTraffic : List (Request Nat) :=
  [.joinGame "b" { gameId := "1900", playerName := none } 8000,
   .makeMove "c" { gameId := "1900", move := 2 } ⟨9000, 9001, 9002⟩,
   .makeMove "b" { gameId := "1900", move := 0 } ⟨10000, 10001, 10002⟩,
   .makeMove "b" { gameId := "1900", move := 3 } ⟨700000, 700001, 700002⟩]

/-- The session `demoActive` without increment. -/
def demoNoIncrement : Game Nat Nat :=
  { demoActive with config := { demoActive.config with increment := 0 } }

/-- White, to move since time `2000`, sends at `3000` a move the engine refuses
and at `4000` a move it accepts. -/
def demoTwoAttempts : List (Request Nat) :=
  [.makeMove "w" { gameId := "1234", move := 0 } ⟨3000, 3000, 3000⟩,
   .makeMove "w" { gameId := "1234", move := 2 } ⟨4000, 4000, 4000⟩]

/-- Black's move in `demoLate`, which the engine accepts. -/
def demoDrawingMove : Request Nat :=
  .makeMove "b" { gameId := "1234", move := 2 } ⟨3000, 3001, 3002⟩
/-! ## Theorems: Chess960 position generator -/

theorem arrayFilter_arrayMap_eq_nil (back_rank : BackRank) (start : Nat)
    (h : NoUndefined back_rank) :
    List.filterMap (fun x : Option Int => x.filter fun i => decide (i ≥ 0))
      ((back_rank.enumFrom start).map fun (ix : Nat × Slot) =>
        ix.2.map fun p => if p = none then (ix.1 : Int) else -1) = [] := by
  induction back_rank generalizing start with
  | nil => rfl
  | cons slot rest ih =>
    have hrest : NoUndefined rest := fun s hs => h s (List.mem_cons_of_mem _ hs)
    have hslot : slot ≠ some none := h slot (List.mem_cons_self _ _)
    simp only [List.enumFrom_cons, List.map_cons, List.filterMap_cons]
    rw [ih (start + 1) hrest]
    cases slot with
    | none => rfl
    | some v =>
      cases v with
      | none => exact absurd rfl hslot
      | some p => rfl

/-- No index is reported free in an array that has only empty slots and letters. -/
theorem emptySquares_eq_nil (back_rank : BackRank) (h : NoUndefined back_rank) :
    emptySquares back_rank = [] := by
  unfold emptySquares arrayFilter arrayMap List.enum
  exact arrayFilter_arrayMap_eq_nil back_rank 0 h

theorem noUndefined_setSquare (back_rank : BackRank) (i : Option Int) (piece : Piece)
    (h : NoUndefined back_rank) : NoUndefined (setSquare back_rank i piece) := by
  unfold setSquare
  cases i with
  | none => exact h
  | some i =>
    simp only []
    split
    · intro slot hs
      rcases List.mem_or_eq_of_mem_set hs with hmem | heq
      · exact h slot hmem
      · rw [heq]; simp
    · exact h

theorem noUndefined_newBackRank : NoUndefined newBackRank := by
  intro slot hs
  rw [newBackRank, List.mem_replicate] at hs
  rw [hs.2]
  simp

theorem knight_positions_undefined (n : Num) :
    Num.index knight_positions (n.floorDiv 0) = none := by
  cases n with
  | nat n =>
    by_cases h : n = 0
    · simp [Num.floorDiv, Num.index, h]
    · simp [Num.floorDiv, Num.index, h]
  | infinity => rfl
  | nan => rfl

/-- C1 (the code at the failing input): for index 518 the specification's five
steps give the back rank `rnbqkbnr`, and the statements of the source give
exactly that when run on an array whose slots hold `undefined`; but
`generateChess960Position(518)` runs them on `new Array(8)`, which has only
empty slots: `map` and `filter` skip them, `empty_squares_1` is `[]`, `n`
becomes `Infinity`, destructuring `knight_positions[n]` throws and nothing is
returned. -/
theorem generateChess960Position_518 :
    specBackRank 518 =
        some [Piece.r, Piece.n, Piece.b, Piece.q, Piece.k, Piece.b, Piece.n, Piece.r] ∧
      placePieces filledBackRank 518 =
        some ([Piece.r, Piece.n, Piece.b, Piece.q, Piece.k, Piece.b, Piece.n, Piece.r].map
          fun p => some (some p)) ∧
      emptySquares (setSquare (setSquare newBackRank (some 5) Piece.b) (some 2) Piece.b) = [] ∧
      generateChess960Position 518 = none := by
  refine ⟨by decide, by decide, by decide, ?_⟩
  rfl

/-- C2 (what the code does instead): for every index, in particular every
index below 960, `generateChess960Position` throws at the destructuring of
`knight_positions[n]` and produces no back rank at all, legal or not. -/
theorem generateChess960Position_throws (positionNumber : Nat) :
    generateChess960Position positionNumber = none := by
  have hempty : ∀ (i j : Option Int),
      emptySquares (setSquare (setSquare newBackRank i Piece.b) j Piece.b) = [] :=
    fun i j => emptySquares_eq_nil _
      (noUndefined_setSquare _ j Piece.b (noUndefined_setSquare _ i Piece.b noUndefined_newBackRank))
  simp only [generateChess960Position, placePieces, hempty, List.length_nil,
    knight_positions_undefined, Option.map_none']

/-! ## Theorems: session handlers -/

section SessionTheorems

variable {P M R : Type}

theorem getGame_putGame_same (games : Registry P R) (id : GameId) (game game' : Game P R)
    (h : getGame games id = some game) : getGame (putGame games id game') id = some game' := by
  induction games with
  | nil => simp [getGame] at h
  | cons entry rest ih =>
    obtain ⟨k, g⟩ := entry
    by_cases hk : k = id
    · simp [putGame, getGame, hk]
    · simp only [getGame, hk, if_false] at h
      simp [putGame, getGame, hk, ih h]

theorem getGame_putGame_other (games : Registry P R) (id id' : GameId) (game' : Game P R)
    (h : id' ≠ id) : getGame (putGame games id game') id' = getGame games id' := by
  induction games with
  | nil => simp [putGame]
  | cons entry rest ih =>
    obtain ⟨k, g⟩ := entry
    by_cases hk : k = id
    · have hne : ¬ k = id' := fun e => h (e.symm.trans hk)
      simp [putGame, getGame, hk, hne, hk ▸ hne]
    · simp only [putGame, hk, if_false, getGame, ih]

theorem putGame_self (games : Registry P R) (id : GameId) (game : Game P R)
    (h : getGame games id = some game) : putGame games id game = games := by
  induction games with
  | nil => rfl
  | cons entry rest ih =>
    obtain ⟨k, g⟩ := entry
    by_cases hk : k = id
    · simp only [getGame, hk, if_true, Option.some.injEq] at h
      simp [putGame, hk, h]
    · simp only [getGame, hk, if_false] at h
      simp [putGame, hk, ih h]

theorem white_of_isSome (game : Game P R) (h : game.players.white.isSome = true) :
    ∃ w, game.players.white = some w :=
  Option.isSome_iff_exists.mp h

/-- The `playerColor` the handlers derive is the side of `sideOf` for every
connection that occupies a seat. -/
theorem playerColor_of_sideOf {game : Game P R} {socketId : SocketId} {w : Player}
    {side : Color} (hw : game.players.white = some w) (h : sideOf game socketId = some side) :
    (if w.id = socketId then Color.white else Color.black) = side := by
  unfold sideOf at h
  rw [hw] at h
  by_cases hid : w.id = socketId
  · simp [hid] at h ⊢
    exact h
  · simp only [Option.map_some', Option.some.injEq, hid, if_false] at h ⊢
    split at h
    · exact Option.some.inj h
    · simp at h

/-- The turn check of `makeMove` passes exactly when the derived colour is the
side to move. -/
theorem turnCheck_iff (turn playerColor : Color) :
    ((turn = Color.white ∧ playerColor ≠ Color.white) ∨
      (turn = Color.black ∧ playerColor ≠ Color.black)) ↔ playerColor ≠ turn := by
  cases turn <;> cases playerColor <;> simp

theorem makeMove_found (E : RulesEngine P M R) (games : Registry P R) (socketId : SocketId)
    (data : MoveData M) (now : MoveClock) (game : Game P R)
    (hfound : getGame games data.gameId = some game) :
    makeMove E games socketId data now =
      (putGame games data.gameId (makeMoveSession E game socketId data.move now).1,
        (makeMoveSession E game socketId data.move now).2) := by
  simp only [makeMove, hfound]

theorem makeMoveSession_not_your_turn (E : RulesEngine P M R) (game : Game P R)
    (socketId : SocketId) (move : M) (now : MoveClock) (side : Color)
    (hlive : game.gameOver = false) (hwhite : game.players.white.isSome = true)
    (hside : sideOf game socketId = some side) (hturn : side ≠ E.turn game.chess) :
    makeMoveSession E game socketId move now = (game, .error "Not your turn") := by
  obtain ⟨w, hw⟩ := white_of_isSome game hwhite
  have hpc := playerColor_of_sideOf hw hside
  simp only [makeMoveSession, hlive, hw, hpc, turnCheck_iff]
  simp [hturn]

theorem makeMoveSession_of_side_to_move (E : RulesEngine P M R) (game : Game P R)
    (socketId : SocketId) (move : M) (now : MoveClock)
    (hlive : game.gameOver = false) (hwhite : game.players.white.isSome = true)
    (hside : sideOf game socketId = some (E.turn game.chess)) :
    makeMoveSession E game socketId move now =
      match updateClock game (E.turn game.chess) now.debit with
      | (game, true) => (game, .error "Time ran out")
      | (game, false) => tryMove E game move now := by
  obtain ⟨w, hw⟩ := white_of_isSome game hwhite
  have hpc := playerColor_of_sideOf hw hside
  simp only [makeMoveSession, hlive, hw, hpc, turnCheck_iff]
  simp

theorem updateClock_flagged (game : Game P R) (turn : Color) (now t : Int)
    (hlast : game.lastMoveTime = some t) (ht : t ≠ 0)
    (hflag : game.clocks.get turn ≤ now - t) :
    updateClock game turn now =
      ({ game with
          clocks := game.clocks.set turn (game.clocks.get turn - (now - t))
          gameOver := true
          result := some { winner := some turn.other, reason := "timeout" } }, true) := by
  have hle : (game.clocks.set turn (game.clocks.get turn - (now - t))).get turn ≤ 0 := by
    cases turn <;> simp only [Clocks.get, Clocks.set] at hflag ⊢ <;> omega
  simp only [updateClock, hlast, ht, if_false, hle, if_true]

theorem updateClock_in_time (game : Game P R) (turn : Color) (now t : Int)
    (hlast : game.lastMoveTime = some t) (ht : t ≠ 0)
    (hin : now - t < game.clocks.get turn) :
    updateClock game turn now =
      ({ game with
          clocks := game.clocks.set turn
            (game.clocks.get turn - (now - t) + game.config.increment * 1000) }, false) := by
  have hgt : ¬ (game.clocks.set turn (game.clocks.get turn - (now - t))).get turn ≤ 0 := by
    cases turn <;> simp only [Clocks.get, Clocks.set] at hin ⊢ <;> omega
  simp only [updateClock, hlast, ht, if_false, hgt]
  cases turn <;> simp [Clocks.get, Clocks.set]

theorem Clocks.get_set_same (c : Clocks) (color : Color) (v : Int) :
    (c.set color v).get color = v := by
  cases color <;> rfl

theorem Clocks.get_set_other (c : Clocks) (color : Color) (v : Int) :
    (c.set color v).get color.other = c.get color.other := by
  cases color <;> rfl

/-- C3: in an existing, not-finished session, a `makeMove` request sent by a
player whose side is not the side to move is answered `'Not your turn'` and
leaves the whole registry as it was, so the session's clocks, position, move
history, `lastMoveTime`, `gameOver` and `result` are unchanged. -/
theorem makeMove_not_your_turn (E : RulesEngine P M R) (games : Registry P R)
    (socketId : SocketId) (data : MoveData M) (now : MoveClock) (game : Game P R)
    (side : Color)
    (hfound : getGame games data.gameId = some game)
    (hlive : game.gameOver = false)
    (hwhite : game.players.white.isSome = true)
    (hside : sideOf game socketId = some side)
    (hturn : side ≠ E.turn game.chess) :
    makeMove E games socketId data now = (games, .error "Not your turn") ∧
      getGame (makeMove E games socketId data now).1 data.gameId = some game := by
  have h : makeMove E games socketId data now = (games, .error "Not your turn") := by
    rw [makeMove_found E games socketId data now game hfound,
      makeMoveSession_not_your_turn E game socketId data.move now side hlive hwhite hside hturn,
      putGame_self games data.gameId game hfound]
  rw [h]
  exact ⟨rfl, hfound⟩

theorem makeMove_not_your_turn_witness :
    makeMove demoEngine demoGames "b" { gameId := "1234", move := 2 } ⟨3000, 3000, 3000⟩ =
        (demoGames, .error "Not your turn") ∧
      getGame (makeMove demoEngine demoGames "b" { gameId := "1234", move := 2 }
        ⟨3000, 3000, 3000⟩).1 "1234" = some demoActive :=
  makeMove_not_your_turn demoEngine demoGames "b" { gameId := "1234", move := 2 }
    ⟨3000, 3000, 3000⟩ demoActive Color.black rfl rfl rfl (by decide) (by decide)

/-- C4: in a started, not-finished session, when the requester is the side to
move and the time elapsed since `lastMoveTime` is at least the mover's
remaining clock, `makeMove` answers `'Time ran out'` whatever the move and the
increment; afterwards `gameOver` is true, `result` is
`{winner: the other side, reason: 'timeout'}` and the position and the move
history are unchanged. -/
theorem makeMove_time_ran_out (E : RulesEngine P M R) (games : Registry P R)
    (socketId : SocketId) (data : MoveData M) (now : MoveClock) (game : Game P R) (t : Int)
    (hfound : getGame games data.gameId = some game)
    (hlive : game.gameOver = false)
    (hwhite : game.players.white.isSome = true)
    (hlast : game.lastMoveTime = some t) (ht : t ≠ 0)
    (hside : sideOf game socketId = some (E.turn game.chess))
    (hflag : game.clocks.get (E.turn game.chess) ≤ now.debit - t) :
    (makeMove E games socketId data now).2 = .error "Time ran out" ∧
      ∃ game', getGame (makeMove E games socketId data now).1 data.gameId = some game' ∧
        game'.gameOver = true ∧
        game'.result = some { winner := some (E.turn game.chess).other, reason := "timeout" } ∧
        game'.chess = game.chess ∧ game'.moveHistory = game.moveHistory := by
  have hs := makeMoveSession_of_side_to_move E game socketId data.move now hlive hwhite hside
  rw [updateClock_flagged game _ now.debit t hlast ht hflag] at hs
  rw [makeMove_found E games socketId data now game hfound, hs]
  exact ⟨rfl, _, getGame_putGame_same games data.gameId game _ hfound, rfl, rfl, rfl, rfl⟩

/-- C5: in a started, not-finished session with increment `i` seconds, a
`makeMove` by the side to move that arrives `e` milliseconds after
`lastMoveTime` with `e` below the mover's clock `c`, and that the engine
accepts, is accepted; afterwards the mover's clock is exactly `c - e + 1000*i`,
the opponent's clock is unchanged and `lastMoveTime` is the time of the move. -/
theorem makeMove_accepted_clock (E : RulesEngine P M R) (games : Registry P R)
    (socketId : SocketId) (data : MoveData M) (now : MoveClock) (game : Game P R) (t : Int)
    (next : P) (mv : R)
    (hfound : getGame games data.gameId = some game)
    (hlive : game.gameOver = false)
    (hwhite : game.players.white.isSome = true)
    (hlast : game.lastMoveTime = some t) (ht : t ≠ 0)
    (hside : sideOf game socketId = some (E.turn game.chess))
    (hin : now.debit - t < game.clocks.get (E.turn game.chess))
    (hmove : E.move game.chess data.move = .accepted next mv) :
    (makeMove E games socketId data now).2 = .moved mv ∧
      ∃ game', getGame (makeMove E games socketId data now).1 data.gameId = some game' ∧
        game'.clocks.get (E.turn game.chess) =
          game.clocks.get (E.turn game.chess) - (now.debit - t) + 1000 * game.config.increment ∧
        game'.clocks.get (E.turn game.chess).other =
          game.clocks.get (E.turn game.chess).other ∧
        game'.lastMoveTime = some now.last := by
  have hs := makeMoveSession_of_side_to_move E game socketId data.move now hlive hwhite hside
  rw [updateClock_in_time game _ now.debit t hlast ht hin] at hs
  simp only [tryMove, hmove] at hs
  rw [makeMove_found E games socketId data now game hfound, hs]
  refine ⟨rfl, _, getGame_putGame_same games data.gameId game _ hfound, ?_, ?_, ?_⟩
  · split <;> simp [Clocks.get_set_same, mul_comm]
  · split <;> simp [Clocks.get_set_other]
  · split <;> rfl

theorem makeMove_time_ran_out_witness :
    (makeMove demoEngine [("1234", demoLowClock)] "w" { gameId := "1234", move := 2 }
        ⟨2500, 2500, 2500⟩).2 = .error "Time ran out" ∧
      ∃ game', getGame (makeMove demoEngine [("1234", demoLowClock)] "w"
          { gameId := "1234", move := 2 } ⟨2500, 2500, 2500⟩).1 "1234" = some game' ∧
        game'.gameOver = true ∧
        game'.result = some { winner := some Color.black, reason := "timeout" } ∧
        game'.chess = 0 ∧ game'.moveHistory = [] :=
  makeMove_time_ran_out demoEngine [("1234", demoLowClock)] "w" { gameId := "1234", move := 2 }
    ⟨2500, 2500, 2500⟩ demoLowClock 2000 rfl rfl rfl rfl (by decide) (by decide) (by decide)

theorem makeMove_accepted_clock_witness :
    (makeMove demoEngine demoGames "w" { gameId := "1234", move := 2 }
        ⟨3000, 3001, 3002⟩).2 = .moved 2 ∧
      ∃ game', getGame (makeMove demoEngine demoGames "w" { gameId := "1234", move := 2 }
          ⟨3000, 3001, 3002⟩).1 "1234" = some game' ∧
        game'.clocks.get Color.white = 300000 - (3000 - 2000) + 1000 * 5 ∧
        game'.clocks.get Color.black = 300000 ∧
        game'.lastMoveTime = some 3002 :=
  makeMove_accepted_clock demoEngine demoGames "w" { gameId := "1234", move := 2 }
    ⟨3000, 3001, 3002⟩ demoActive 2000 1 2 rfl rfl rfl rfl (by decide) (by decide) (by decide)
    rfl

/-- What `makeMove` does when the side to move sends, in time, a move the engine
refuses: the answer is an error and the position, the history and
`lastMoveTime` stay, but the mover's clock has been debited and the increment
added. -/
theorem makeMove_refused_clock (E : RulesEngine P M R) (games : Registry P R)
    (socketId : SocketId) (data : MoveData M) (now : MoveClock) (game : Game P R) (t : Int)
    (hfound : getGame games data.gameId = some game)
    (hlive : game.gameOver = false)
    (hwhite : game.players.white.isSome = true)
    (hlast : game.lastMoveTime = some t) (ht : t ≠ 0)
    (hside : sideOf game socketId = some (E.turn game.chess))
    (hin : now.debit - t < game.clocks.get (E.turn game.chess))
    (hmove : (E.move game.chess data.move).isAccepted = false) :
    (∃ message, (makeMove E games socketId data now).2 = .error message) ∧
      ∃ game', getGame (makeMove E games socketId data now).1 data.gameId = some game' ∧
        game'.clocks.get (E.turn game.chess) =
          game.clocks.get (E.turn game.chess) - (now.debit - t) + 1000 * game.config.increment ∧
        game'.chess = game.chess ∧ game'.moveHistory = game.moveHistory ∧
        game'.lastMoveTime = some t ∧ game'.gameOver = false := by
  have hs := makeMoveSession_of_side_to_move E game socketId data.move now hlive hwhite hside
  rw [updateClock_in_time game _ now.debit t hlast ht hin] at hs
  rw [makeMove_found E games socketId data now game hfound, hs]
  simp only [tryMove]
  cases hm : E.move game.chess data.move with
  | accepted next mv => simp [hm, MoveOutcome.isAccepted] at hmove
  | null =>
    exact ⟨⟨_, rfl⟩, _, getGame_putGame_same games data.gameId game _ hfound,
      by simp [Clocks.get_set_same, mul_comm], rfl, rfl, hlast, hlive⟩
  | threw message =>
    exact ⟨⟨_, rfl⟩, _, getGame_putGame_same games data.gameId game _ hfound,
      by simp [Clocks.get_set_same, mul_comm], rfl, rfl, hlast, hlive⟩

/-- C6 (the code at the failing input): in the started session `demoActive`
(increment 5 s, white's clock 300000 ms, last move at 2000), white, the side to
move, sends at time 3000 a move the engine refuses. The answer is
`'Illegal move'`, yet white's stored clock is 304000 = 300000 - 1000 + 5000:
the increment has been added although no move was accepted. -/
theorem makeMove_refused_move_credits_increment :
    makeMove demoEngine demoGames "w" { gameId := "1234", move := 0 } ⟨3000, 3000, 3000⟩ =
      (putGame demoGames "1234"
        { demoActive with clocks := { white := 304000, black := 300000 } },
       .error "Illegal move") := by
  rfl

theorem updateClock_frame (game : Game P R) (turn : Color) (now : Int) :
    (updateClock game turn now).1.chess = game.chess ∧
      (updateClock game turn now).1.moveHistory = game.moveHistory ∧
      (updateClock game turn now).1.players = game.players ∧
      (updateClock game turn now).1.lastMoveTime = game.lastMoveTime ∧
      (updateClock game turn now).1.gameStarted = game.gameStarted := by
  cases hl : game.lastMoveTime with
  | none => simp [updateClock, hl]
  | some t =>
    by_cases ht : t = 0
    · simp [updateClock, hl, ht]
    · by_cases hf : game.clocks.get turn ≤ now - t
      · rw [updateClock_flagged game turn now t hl ht hf]
        simp [hl]
      · rw [updateClock_in_time game turn now t hl ht (by omega)]
        simp [hl]

theorem updateClock_playable (E : RulesEngine P M R) (game : Game P R) (r : MoveRequest M)
    (hp : Playable E game r) :
    (updateClock game (E.turn game.chess) r.now.debit).2 = false := by
  cases hl : game.lastMoveTime with
  | none => simp [updateClock, hl]
  | some t =>
    by_cases ht : t = 0
    · simp [updateClock, hl, ht]
    · rw [updateClock_in_time game _ r.now.debit t hl ht (hp.2.2 t (by simp [hl]) ht)]

theorem makeMoveSession_playable (E : RulesEngine P M R) (game : Game P R) (r : MoveRequest M)
    (hlive : game.gameOver = false) (hwhite : game.players.white.isSome = true)
    (hp : Playable E game r) :
    ∃ next mv, E.move game.chess r.move = .accepted next mv ∧
      (makeMoveSession E game r.socketId r.move r.now).2 = .moved mv ∧
      (makeMoveSession E game r.socketId r.move r.now).1.chess = next ∧
      (makeMoveSession E game r.socketId r.move r.now).1.moveHistory =
        game.moveHistory ++ [{ move := mv, fen := E.fen next, timestamp := r.now.stamp }] ∧
      (makeMoveSession E game r.socketId r.move r.now).1.players = game.players := by
  rw [makeMoveSession_of_side_to_move E game r.socketId r.move r.now hlive hwhite hp.1]
  have hb := updateClock_playable E game r hp
  obtain ⟨hc, hh, hpl, -, -⟩ := updateClock_frame game (E.turn game.chess) r.now.debit
  rcases hu : updateClock game (E.turn game.chess) r.now.debit with ⟨g1, b⟩
  rw [hu] at hb hc hh hpl
  simp only at hb hc hh hpl
  subst hb
  simp only [tryMove, hc]
  cases hm : E.move game.chess r.move with
  | accepted next mv =>
    refine ⟨next, mv, rfl, ?_, ?_, ?_, ?_⟩
    · simp
    · simp only []; split <;> rfl
    · simp only []; split <;> simp [hh]
    · simp only []; split <;> simp [hpl]
  | null => have := hp.2.1; simp [hm, MoveOutcome.isAccepted] at this
  | threw message => have := hp.2.1; simp [hm, MoveOutcome.isAccepted] at this

theorem makeMovesIn_found (E : RulesEngine P M R) (gameId : GameId)
    (reqs : List (MoveRequest M)) :
    ∀ (games : Registry P R) (game : Game P R), getGame games gameId = some game →
      getGame (makeMovesIn E games gameId reqs) gameId = some (makeMoves E game reqs) := by
  induction reqs with
  | nil => intro games game h; exact h
  | cons r rest ih =>
    intro games game h
    simp only [makeMovesIn, makeMoves]
    apply ih
    rw [makeMove_found E games r.socketId { gameId := gameId, move := r.move } r.now game h]
    exact getGame_putGame_same games gameId game _ h

theorem replay_of_live_run (E : RulesEngine P M R) (reqs : List (MoveRequest M)) :
    ∀ game : Game P R, game.players.white.isSome = true →
      PlayableRun E game reqs → LiveRun E game reqs →
      ∃ final log, replay E game.chess (reqs.map MoveRequest.move) = some (final, log) ∧
        (makeMoves E game reqs).chess = final ∧
        (makeMoves E game reqs).moveHistory = game.moveHistory ++
          List.zipWith (fun r e => { move := e.1, fen := e.2, timestamp := r.now.stamp })
            reqs log ∧
        log.length = reqs.length ∧
        (reqs ≠ [] → (makeMoves E game reqs).moveHistory.getLast?.map HistoryEntry.fen =
          some (E.fen (makeMoves E game reqs).chess)) := by
  induction reqs with
  | nil =>
    intro game _ _ _
    exact ⟨game.chess, [], rfl, rfl, by simp [makeMoves], rfl, fun h => absurd rfl h⟩
  | cons r rest ih =>
    intro game hwhite hplay hlive
    obtain ⟨next, mv, hm, -, hchess, hhist, hplayers⟩ :=
      makeMoveSession_playable E game r hlive.1 hwhite hplay.1
    have hwhite' : (makeMoveSession E game r.socketId r.move r.now).1.players.white.isSome
        = true := by rw [hplayers]; exact hwhite
    obtain ⟨final, log, hrep, hfin, hlog, hlen, hlast⟩ :=
      ih (makeMoveSession E game r.socketId r.move r.now).1 hwhite' hplay.2 hlive.2
    rw [hchess] at hrep
    refine ⟨final, (mv, E.fen next) :: log, ?_, ?_, ?_, ?_, ?_⟩
    · simp [replay, hm, hrep]
    · simpa [makeMoves] using hfin
    · simp only [makeMoves, hlog, hhist, List.zipWith_cons_cons, List.append_assoc,
        List.singleton_append]
    · simp [hlen]
    · intro _
      simp only [makeMoves]
      by_cases hrest : rest = []
      · subst hrest
        simp only [makeMoves, hhist, hchess]
        simp
      · exact hlast hrest

/-- C7 (amended): for every session and every run of `makeMove` requests for it
in which each request is made by the side to move, is accepted by the rules
engine, arrives before the mover's clock runs out and finds the session not
finished, the session's position afterwards is the engine state obtained by
applying the same moves in order directly to the rules engine from the same
position; `moveHistory` has grown by exactly one entry per move, in order, each
holding the engine's move descriptor and resulting FEN, and the FEN of its last
entry is that of the current position. -/
theorem makeMoves_replay (E : RulesEngine P M R) (games : Registry P R) (gameId : GameId)
    (game : Game P R) (reqs : List (MoveRequest M))
    (hfound : getGame games gameId = some game)
    (hwhite : game.players.white.isSome = true)
    (hplay : PlayableRun E game reqs) (hlive : LiveRun E game reqs) :
    ∃ game' final log,
      getGame (makeMovesIn E games gameId reqs) gameId = some game' ∧
      replay E game.chess (reqs.map MoveRequest.move) = some (final, log) ∧
      game'.chess = final ∧
      game'.moveHistory = game.moveHistory ++
        List.zipWith (fun r e => { move := e.1, fen := e.2, timestamp := r.now.stamp })
          reqs log ∧
      log.length = reqs.length ∧
      game'.moveHistory.length = game.moveHistory.length + reqs.length ∧
      (reqs ≠ [] → game'.moveHistory.getLast?.map HistoryEntry.fen = some (E.fen game'.chess)) := by
  obtain ⟨final, log, hrep, hfin, hlog, hlen, hlast⟩ :=
    replay_of_live_run E reqs game hwhite hplay hlive
  refine ⟨makeMoves E game reqs, final, log, makeMovesIn_found E gameId reqs games game hfound,
    hrep, hfin, hlog, hlen, ?_, hlast⟩
  rw [hlog]
  simp [hlen]

theorem makeMoves_replay_witness :
    ∃ game' final log,
      getGame (makeMovesIn demoEngine demoGames "1234" demoRun) "1234" = some game' ∧
      replay demoEngine demoActive.chess (demoRun.map MoveRequest.move) = some (final, log) ∧
      game'.chess = final ∧
      game'.moveHistory = demoActive.moveHistory ++
        List.zipWith (fun r e => { move := e.1, fen := e.2, timestamp := r.now.stamp })
          demoRun log ∧
      log.length = demoRun.length ∧
      game'.moveHistory.length = demoActive.moveHistory.length + demoRun.length ∧
      (demoRun ≠ [] →
        game'.moveHistory.getLast?.map HistoryEntry.fen = some (demoEngine.fen game'.chess)) :=
  makeMoves_replay demoEngine demoGames "1234" demoActive demoRun rfl rfl
    (by unfold demoRun; exact ⟨by decide, by decide, trivial⟩)
    (by unfold demoRun; exact ⟨by decide, by decide, trivial⟩)

/-- C7 (counterexample): the claim as stated, without the condition that the
session is not finished, fails. (1) In the resigned session `demoResigned`,
white, the side to move, sends in time a move the engine accepts: the position
stays `0` and the history empty, while the engine, given the same move, reaches
`1`. (2) In the live session `demoLate` two such moves are sent; the first
leaves the engine reporting a draw, so the session is finished and refuses the
second, which the engine itself would accept: the position stays `4`, the
engine reaches `5`. -/
theorem makeMoves_replay_fails_without_live :
    (PlayableRun demoEngine demoResigned demoRunWhite ∧
      replay demoEngine demoResigned.chess (demoRunWhite.map MoveRequest.move) =
        some (1, [(2, "after-1")]) ∧
      (makeMoves demoEngine demoResigned demoRunWhite).chess ≠ 1 ∧
      (makeMoves demoEngine demoResigned demoRunWhite).moveHistory = []) ∧
    (demoLate.gameOver = false ∧
      PlayableRun demoEngine demoLate demoRunLate ∧
      replay demoEngine demoLate.chess (demoRunLate.map MoveRequest.move) =
        some (5, [(2, "later"), (2, "later")]) ∧
      (makeMoves demoEngine demoLate demoRunLate).chess ≠ 5) := by
  refine ⟨⟨?_, by decide, by decide, rfl⟩, rfl, ?_, by decide, by decide⟩
  · unfold demoRunWhite
    exact ⟨by decide, trivial⟩
  · unfold demoRunLate
    exact ⟨by decide, by decide, trivial⟩

/-- C8: in a not-finished session, `resign` by a requester occupying side `A`
sets `gameOver` and `result = {winner: the side other than A, reason:
'resignation'}`, whatever the position and the side to move, and leaves the
position, the move history and the clocks unchanged. -/
theorem resign_result (games : Registry P R) (socketId : SocketId) (gameId : GameId)
    (game : Game P R) (side : Color)
    (hfound : getGame games gameId = some game)
    (hlive : game.gameOver = false)
    (hwhite : game.players.white.isSome = true)
    (hside : sideOf game socketId = some side) :
    ∃ game', getGame (resign games socketId gameId).1 gameId = some game' ∧
      game'.gameOver = true ∧
      game'.result = some { winner := some side.other, reason := "resignation" } ∧
      game'.chess = game.chess ∧ game'.moveHistory = game.moveHistory ∧
      game'.clocks = game.clocks := by
  obtain ⟨w, hw⟩ := white_of_isSome game hwhite
  have hpc := playerColor_of_sideOf hw hside
  have hs : resignSession game socketId =
      ({ game with
          gameOver := true
          result := some { winner := some side.other, reason := "resignation" } },
        (Response.silent : Response R)) := by
    simp only [resignSession, hlive, hw, hpc]
    simp
  simp only [resign, hfound, hs]
  exact ⟨_, getGame_putGame_same games gameId game _ hfound, rfl, rfl, rfl, rfl, rfl⟩

theorem resign_result_witness :
    ∃ game', getGame (resign demoGames "b" "1234").1 "1234" = some game' ∧
      game'.gameOver = true ∧
      game'.result = some { winner := some Color.black.other, reason := "resignation" } ∧
      game'.chess = demoActive.chess ∧ game'.moveHistory = demoActive.moveHistory ∧
      game'.clocks = demoActive.clocks :=
  resign_result demoGames "b" "1234" demoActive Color.black rfl rfl rfl (by decide)

theorem sideOf_eq_none_iff (game : Game P R) (socketId : SocketId) :
    sideOf game socketId = none ↔
      ¬ (game.players.white.map Player.id = some socketId ∨
          game.players.black.map Player.id = some socketId) := by
  unfold sideOf
  by_cases h1 : game.players.white.map Player.id = some socketId
  · simp [h1]
  · by_cases h2 : game.players.black.map Player.id = some socketId
    · simp [h1, h2]
    · simp [h1, h2]

theorem mem_setDelete (s : List SocketId) (x y : SocketId) :
    y ∈ setDelete s x ↔ y ∈ s ∧ y ≠ x := by
  simp [setDelete]

theorem not_mem_setDelete (s : List SocketId) (x : SocketId) : x ∉ setDelete s x := by
  simp [setDelete]

theorem setDelete_sublist (s : List SocketId) (x : SocketId) :
    List.Sublist (setDelete s x) s :=
  List.filter_sublist s

theorem disconnectSession_effect (game : Game P R) (socketId : SocketId)
    (hwhite : game.players.white.isSome = true) :
    ∃ game', disconnectSession game socketId = some game' ∧
      DisconnectEffect socketId game game' := by
  obtain ⟨w, hw⟩ := white_of_isSome game hwhite
  by_cases hocc : game.players.white.map Player.id = some socketId ∨
      game.players.black.map Player.id = some socketId
  · have hne : sideOf game socketId ≠ none := fun h => (sideOf_eq_none_iff game socketId).mp h hocc
    cases hover : game.gameOver with
    | true =>
      refine ⟨{ game with spectators := setDelete game.spectators socketId }, ?_, ?_⟩
      · rw [disconnectSession, if_pos hocc]
        simp [hover]
      · refine ⟨not_mem_setDelete _ _, fun other => mem_setDelete _ _ other,
          setDelete_sublist _ _, rfl, rfl, rfl, rfl, rfl, rfl, ?_, ?_, ?_⟩
        · intro side h; rw [hover] at h; simp at h
        · intro _; exact ⟨hover, rfl⟩
        · intro h; exact absurd h hne
    | false =>
      obtain ⟨side, hside⟩ := Option.ne_none_iff_exists'.mp hne
      have hpc := playerColor_of_sideOf hw hside
      refine ⟨{ game with
          gameOver := true,
          result := some { winner := some side.other, reason := "abandonment" },
          spectators := setDelete game.spectators socketId }, ?_, ?_⟩
      · rw [disconnectSession, if_pos hocc]
        simp [hover, hw, hpc]
      · refine ⟨not_mem_setDelete _ _, fun other => mem_setDelete _ _ other,
          setDelete_sublist _ _, rfl, rfl, rfl, rfl, rfl, rfl, ?_, ?_, ?_⟩
        · intro side' _ hside'
          rw [hside] at hside'
          cases hside'
          exact ⟨rfl, rfl⟩
        · intro h; rw [hover] at h; simp at h
        · intro h; exact absurd h hne
  · have hnone : sideOf game socketId = none := (sideOf_eq_none_iff game socketId).mpr hocc
    refine ⟨{ game with spectators := setDelete game.spectators socketId }, ?_, ?_⟩
    · rw [disconnectSession, if_neg hocc]
    · refine ⟨not_mem_setDelete _ _, fun other => mem_setDelete _ _ other,
          setDelete_sublist _ _, rfl, rfl, rfl, rfl, rfl, rfl, ?_, ?_, ?_⟩
      · intro side _ hside; rw [hnone] at hside; simp at hside
      · intro h; exact ⟨h, rfl⟩
      · intro _; exact ⟨rfl, rfl⟩

/-- C9: when a connection disconnects (every registered session having its
creator on the white seat), the handler runs through the whole registry and,
entry by entry under the same key: a not-finished session in which the
connection occupies side `A` becomes finished with `result = {winner: the other
side, reason: 'abandonment'}`; a finished session keeps `gameOver` and
`result`; a session in which the connection occupies no side keeps `gameOver`
and `result`; in every session the connection is removed from the spectator
set (it is not a member afterwards, the other spectators are exactly those
before, in the same order) and position, clocks, history and players stay. -/
theorem disconnect_effect (games : Registry P R) (socketId : SocketId)
    (hwhite : ∀ entry ∈ games, entry.2.players.white.isSome = true) :
    (disconnect games socketId).2 = (Response.silent : Response R) ∧
      List.Forall₂ (fun old new => new.1 = old.1 ∧ DisconnectEffect socketId old.2 new.2)
        games (disconnect games socketId).1 := by
  induction games with
  | nil => exact ⟨rfl, List.Forall₂.nil⟩
  | cons entry rest ih =>
    obtain ⟨k, game⟩ := entry
    obtain ⟨game', hd, heff⟩ :=
      disconnectSession_effect game socketId (hwhite (k, game) (List.mem_cons_self _ _))
    obtain ⟨hresp, hall⟩ := ih (fun e he => hwhite e (List.mem_cons_of_mem _ he))
    simp only [disconnect, hd]
    exact ⟨hresp, List.Forall₂.cons ⟨rfl, heff⟩ hall⟩

theorem disconnect_effect_witness :
    ((disconnect demoWatched "b").2 = (Response.silent : Response Nat) ∧
      List.Forall₂ (fun old new => new.1 = old.1 ∧ DisconnectEffect "b" old.2 new.2)
        demoWatched (disconnect demoWatched "b").1) ∧
    demoWatched.map (fun entry => (entry.1, entry.2.spectators, entry.2.gameOver)) =
      [("1234", ["x"], false), ("2000", ["b", "x"], false)] ∧
    (disconnect demoWatched "b").1.map
        (fun entry => (entry.1, entry.2.spectators, entry.2.gameOver, entry.2.result)) =
      [("1234", ["x"], true, some { winner := some Color.white, reason := "abandonment" }),
       ("2000", ["x"], false, none)] :=
  ⟨disconnect_effect demoWatched "b" (by decide), rfl, rfl⟩

/-- The shape shared by the handlers that look a session up and mutate it: the
white seat is kept, and a started session stays started with its players. -/
theorem kept_after_update (games : Registry P R) (id k : GameId) (game : Game P R)
    (f : Game P R → Game P R)
    (hfound : getGame games id = some game)
    (hf : ∀ g : Game P R, (f g).players.white = g.players.white ∧
      (g.gameStarted = true → (f g).gameStarted = true ∧ (f g).players = g.players)) :
    ∃ game', getGame (match getGame games k with
        | none => games
        | some g => putGame games k (f g)) id = some game' ∧
      game'.players.white = game.players.white ∧
      (game.gameStarted = true → game'.gameStarted = true ∧ game'.players = game.players) := by
  cases hk : getGame games k with
  | none => exact ⟨game, hfound, rfl, fun h => ⟨h, rfl⟩⟩
  | some g =>
    by_cases hid : id = k
    · subst hid
      rw [hfound] at hk
      cases hk
      exact ⟨f game, getGame_putGame_same games id game _ hfound, hf game⟩
    · refine ⟨game, ?_, rfl, fun h => ⟨h, rfl⟩⟩
      simp only []
      rw [getGame_putGame_other games k id _ hid]
      exact hfound

theorem joinGameSession_frame (E : RulesEngine P M R) (game : Game P R) (socketId : SocketId)
    (playerName : Option String) (now : Int) :
    (joinGameSession E game socketId playerName now).1.players.white = game.players.white ∧
      (game.gameStarted = true →
        (joinGameSession E game socketId playerName now).1.gameStarted = true ∧
        (joinGameSession E game socketId playerName now).1.players = game.players) := by
  unfold joinGameSession
  by_cases hs : game.gameStarted = true
  · rw [if_pos hs]
    exact ⟨rfl, fun _ => ⟨hs, rfl⟩⟩
  · rw [if_neg hs]
    by_cases hb : game.players.black.isNone = true
    · rw [if_pos hb]
      exact ⟨rfl, fun h => absurd h hs⟩
    · rw [if_neg hb]
      exact ⟨rfl, fun h => absurd h hs⟩

theorem tryMove_frame (E : RulesEngine P M R) (game : Game P R) (move : M) (now : MoveClock) :
    (tryMove E game move now).1.gameStarted = game.gameStarted ∧
      (tryMove E game move now).1.players = game.players := by
  unfold tryMove
  cases E.move game.chess move with
  | accepted next mv => simp only []; split <;> exact ⟨rfl, rfl⟩
  | null => exact ⟨rfl, rfl⟩
  | threw message => exact ⟨rfl, rfl⟩

theorem makeMoveSession_cases (E : RulesEngine P M R) (game : Game P R) (socketId : SocketId)
    (move : M) (now : MoveClock) :
    (∃ response, makeMoveSession E game socketId move now = (game, response)) ∨
    makeMoveSession E game socketId move now =
      ((updateClock game (E.turn game.chess) now.debit).1, .error "Time ran out") ∨
    makeMoveSession E game socketId move now =
      tryMove E (updateClock game (E.turn game.chess) now.debit).1 move now := by
  unfold makeMoveSession
  by_cases hover : game.gameOver = true
  · left; exact ⟨_, by rw [if_pos hover]⟩
  · rw [if_neg hover]
    cases hw : game.players.white with
    | none => left; exact ⟨_, rfl⟩
    | some w =>
      simp only []
      by_cases hturn : (E.turn game.chess = Color.white ∧
          (if w.id = socketId then Color.white else Color.black) ≠ Color.white) ∨
          (E.turn game.chess = Color.black ∧
          (if w.id = socketId then Color.white else Color.black) ≠ Color.black)
      · left; exact ⟨_, by rw [if_pos hturn]⟩
      · right
        rw [if_neg hturn]
        rcases updateClock game (E.turn game.chess) now.debit with ⟨g1, b⟩
        cases b
        · right; rfl
        · left; rfl

theorem makeMoveSession_frame (E : RulesEngine P M R) (game : Game P R) (socketId : SocketId)
    (move : M) (now : MoveClock) :
    (makeMoveSession E game socketId move now).1.gameStarted = game.gameStarted ∧
      (makeMoveSession E game socketId move now).1.players = game.players := by
  obtain ⟨-, -, hpl, -, hst⟩ := updateClock_frame game (E.turn game.chess) now.debit
  rcases makeMoveSession_cases E game socketId move now with ⟨response, h⟩ | h | h
  · rw [h]; exact ⟨rfl, rfl⟩
  · rw [h]; exact ⟨hst, hpl⟩
  · rw [h, ← hpl, ← hst]
    exact tryMove_frame E _ move now

theorem resignSession_frame (game : Game P R) (socketId : SocketId) :
    (resignSession game socketId : Game P R × Response R).1.gameStarted = game.gameStarted ∧
      (resignSession game socketId : Game P R × Response R).1.players = game.players := by
  unfold resignSession
  by_cases hover : (!game.gameOver) = true
  · rw [if_pos hover]
    cases game.players.white <;> exact ⟨rfl, rfl⟩
  · rw [if_neg hover]
    exact ⟨rfl, rfl⟩

theorem acceptDrawSession_frame (game : Game P R) :
    (acceptDrawSession game).gameStarted = game.gameStarted ∧
      (acceptDrawSession game).players = game.players := by
  unfold acceptDrawSession
  by_cases hover : (!game.gameOver) = true
  · rw [if_pos hover]; exact ⟨rfl, rfl⟩
  · rw [if_neg hover]; exact ⟨rfl, rfl⟩

theorem disconnect_started (socketId : SocketId) (id : GameId) :
    ∀ (games : Registry P R) (game : Game P R), getGame games id = some game →
      ∃ game', getGame (disconnect games socketId).1 id = some game' ∧
        game'.gameStarted = game.gameStarted ∧ game'.players = game.players := by
  intro games
  induction games with
  | nil => intro game h; simp [getGame] at h
  | cons entry rest ih =>
    obtain ⟨k, g⟩ := entry
    intro game h
    cases hd : disconnectSession g socketId with
    | none =>
      simp only [disconnect, hd]
      exact ⟨game, h, rfl, rfl⟩
    | some g' =>
      simp only [disconnect, hd]
      by_cases hk : k = id
      · simp only [getGame, hk, if_true, Option.some.injEq] at h ⊢
        subst h
        refine ⟨g', rfl, ?_⟩
        unfold disconnectSession at hd
        split at hd
        · split at hd
          · split at hd
            · simp at hd
            · cases hd; exact ⟨rfl, rfl⟩
          · cases hd; exact ⟨rfl, rfl⟩
        · cases hd; exact ⟨rfl, rfl⟩
      · simp only [getGame, hk, if_false] at h ⊢
        exact ih game h

/-- Whatever request is handled, a registered session stays registered under
its key with the same white seat, and a started session stays started with the
same players. -/
theorem handle_keeps (E : RulesEngine P M R) (games : Registry P R) (req : Request M)
    (id : GameId) (game : Game P R) (hfound : getGame games id = some game) :
    ∃ game', getGame (handle E games req).1 id = some game' ∧
      game'.players.white = game.players.white ∧
      (game.gameStarted = true → game'.gameStarted = true ∧ game'.players = game.players) := by
  cases req with
  | joinGame socketId data now =>
    have h := kept_after_update games id data.gameId game
      (fun g => (joinGameSession E g socketId data.playerName now).1) hfound
      (fun g => joinGameSession_frame E g socketId data.playerName now)
    simp only [handle, joinGame]
    cases hk : getGame games data.gameId <;> simpa [hk] using h
  | makeMove socketId data now =>
    have h := kept_after_update games id data.gameId game
      (fun g => (makeMoveSession E g socketId data.move now).1) hfound
      (fun g => by
        have := makeMoveSession_frame E g socketId data.move now
        exact ⟨by rw [this.2], fun hg => ⟨this.1.trans hg, this.2⟩⟩)
    simp only [handle, makeMove]
    cases hk : getGame games data.gameId <;> simpa [hk] using h
  | resign socketId gameId =>
    have h := kept_after_update games id gameId game
      (fun g => (resignSession g socketId).1) hfound
      (fun g => by
        have := resignSession_frame (R := R) g socketId
        exact ⟨by rw [this.2], fun hg => ⟨this.1.trans hg, this.2⟩⟩)
    simp only [handle, resign]
    cases hk : getGame games gameId <;> simpa [hk] using h
  | offerDraw socketId gameId => exact ⟨game, hfound, rfl, fun h => ⟨h, rfl⟩⟩
  | acceptDraw socketId gameId =>
    have h := kept_after_update games id gameId game
      (fun g => acceptDrawSession g) hfound
      (fun g => by
        have := acceptDrawSession_frame g
        exact ⟨by rw [this.2], fun hg => ⟨this.1.trans hg, this.2⟩⟩)
    simp only [handle, acceptDraw]
    cases hk : getGame games gameId <;> simpa [hk] using h
  | getGameState gameId => exact ⟨game, hfound, rfl, fun h => ⟨h, rfl⟩⟩
  | disconnect socketId =>
    obtain ⟨game', hg, hs, hp⟩ := disconnect_started socketId id games game hfound
    exact ⟨game', hg, by rw [hp], fun h => ⟨hs.trans h, hp⟩⟩

theorem handleAll_keeps (E : RulesEngine P M R) (reqs : List (Request M)) (id : GameId) :
    ∀ (games : Registry P R) (game : Game P R), getGame games id = some game →
      ∃ game', getGame (handleAll E games reqs) id = some game' ∧
        game'.players.white = game.players.white ∧
        (game.gameStarted = true → game'.gameStarted = true ∧ game'.players = game.players) := by
  induction reqs with
  | nil => intro games game h; exact ⟨game, h, rfl, fun hs => ⟨hs, rfl⟩⟩
  | cons req rest ih =>
    intro games game h
    obtain ⟨g1, h1, hw1, hs1⟩ := handle_keeps E games req id game h
    obtain ⟨g2, h2, hw2, hs2⟩ := ih (handle E games req).1 g1 h1
    exact ⟨g2, h2, hw2.trans hw1, fun hs =>
      ⟨(hs2 (hs1 hs).1).1, ((hs2 (hs1 hs).1).2).trans (hs1 hs).2⟩⟩

theorem joinGame_found (E : RulesEngine P M R) (games : Registry P R) (socketId : SocketId)
    (data : JoinData) (now : Int) (game : Game P R)
    (hfound : getGame games data.gameId = some game) :
    joinGame E games socketId data now =
      (putGame games data.gameId (joinGameSession E game socketId data.playerName now).1,
        (joinGameSession E game socketId data.playerName now).2) := by
  simp only [joinGame, hfound]

/-- C10: for a room code not in the registry `joinGame` answers
`'Game not found'` and changes nothing. For a pending session (not started, no
second player) `joinGame` answers `'black'`, seats the joiner on the black
side, sets `gameStarted` and sets `lastMoveTime` to the current time. For a
started session `joinGame` answers `'spectator'`, adds the connection to the
spectator set and leaves players, `gameStarted`, `lastMoveTime`, clocks and
position unchanged. A started session stays started with the same players
through every later list of requests, so each later `joinGame` is the
spectator case and the flip from pending to active happens once. -/
theorem joinGame_effect (E : RulesEngine P M R) (games : Registry P R) (socketId : SocketId)
    (data : JoinData) (now : Int) :
    (getGame games data.gameId = none →
      joinGame E games socketId data now = (games, .error "Game not found")) ∧
    (∀ game, getGame games data.gameId = some game → game.gameStarted = false →
      game.players.black = none →
      ∃ game', getGame (joinGame E games socketId data now).1 data.gameId = some game' ∧
        (joinGame E games socketId data now).2 = .joined "black" (getGameState E game') ∧
        game'.players.black =
          some { id := socketId, name := orDefault data.playerName "Player 2" } ∧
        game'.players.white = game.players.white ∧
        game'.gameStarted = true ∧ game'.lastMoveTime = some now ∧
        game'.clocks = game.clocks ∧ game'.chess = game.chess ∧
        game'.gameOver = game.gameOver ∧ game'.result = game.result) ∧
    (∀ game, getGame games data.gameId = some game → game.gameStarted = true →
      (∃ game', getGame (joinGame E games socketId data now).1 data.gameId = some game' ∧
        (joinGame E games socketId data now).2 = .joined "spectator" (getGameState E game') ∧
        game'.spectators = setAdd game.spectators socketId ∧ socketId ∈ game'.spectators ∧
        game'.players = game.players ∧ game'.gameStarted = true ∧
        game'.lastMoveTime = game.lastMoveTime ∧ game'.clocks = game.clocks ∧
        game'.chess = game.chess) ∧
      ∀ later : List (Request M), ∃ game'',
        getGame (handleAll E games later) data.gameId = some game'' ∧
        game''.gameStarted = true ∧ game''.players = game.players ∧
        (joinGame E (handleAll E games later) socketId data now).2 =
          .joined "spectator"
            (getGameState E { game'' with spectators := setAdd game''.spectators socketId })) := by
  refine ⟨?_, ?_, ?_⟩
  · intro h
    simp only [joinGame, h]
  · intro game hfound hpending hblack
    rw [joinGame_found E games socketId data now game hfound]
    have hs : joinGameSession E game socketId data.playerName now =
        ({ game with
            players := { game.players with
              black := some { id := socketId, name := orDefault data.playerName "Player 2" } },
            gameStarted := true,
            lastMoveTime := some now },
         .joined "black" (getGameState E { game with
            players := { game.players with
              black := some { id := socketId, name := orDefault data.playerName "Player 2" } },
            gameStarted := true,
            lastMoveTime := some now })) := by
      simp [joinGameSession, hpending, hblack]
    rw [hs]
    exact ⟨_, getGame_putGame_same games data.gameId game _ hfound, rfl, rfl, rfl, rfl, rfl, rfl,
      rfl, rfl, rfl⟩
  · intro game hfound hstarted
    have hs : ∀ g : Game P R, g.gameStarted = true →
        joinGameSession E g socketId data.playerName now =
          ({ g with spectators := setAdd g.spectators socketId },
           .joined "spectator"
            (getGameState E { g with spectators := setAdd g.spectators socketId })) := by
      intro g hg
      simp [joinGameSession, hg]
    refine ⟨?_, ?_⟩
    · rw [joinGame_found E games socketId data now game hfound, hs game hstarted]
      refine ⟨_, getGame_putGame_same games data.gameId game _ hfound, rfl, rfl, ?_, rfl,
        hstarted, rfl, rfl, rfl⟩
      show socketId ∈ setAdd game.spectators socketId
      unfold setAdd
      split
      · assumption
      · simp
    · intro later
      obtain ⟨g2, h2, -, hkeep⟩ := handleAll_keeps E later data.gameId games game hfound
      obtain ⟨hs2, hp2⟩ := hkeep hstarted
      refine ⟨g2, h2, hs2, hp2, ?_⟩
      rw [joinGame_found E (handleAll E games later) socketId data now g2 h2, hs g2 hs2]

theorem joinGame_effect_witness :
    joinGame demoEngine demoLobby "b" { gameId := "9999", playerName := none } 2000 =
        (demoLobby, .error "Game not found") ∧
    (∃ game', getGame (joinGame demoEngine demoLobby "b"
          { gameId := "1234", playerName := none } 2000).1 "1234" = some game' ∧
        (joinGame demoEngine demoLobby "b" { gameId := "1234", playerName := none } 2000).2 =
          .joined "black" (getGameState demoEngine game') ∧
        game'.players.black = some { id := "b", name := orDefault none "Player 2" } ∧
        game'.players.white = demoPending.players.white ∧
        game'.gameStarted = true ∧ game'.lastMoveTime = some 2000 ∧
        game'.clocks = demoPending.clocks ∧ game'.chess = demoPending.chess ∧
        game'.gameOver = demoPending.gameOver ∧ game'.result = demoPending.result) ∧
    (∃ game'', getGame (handleAll demoEngine demoGames demoTraffic) "1234" = some game'' ∧
        game''.gameStarted = true ∧ game''.players = demoActive.players ∧
        (joinGame demoEngine (handleAll demoEngine demoGames demoTraffic) "x"
            { gameId := "1234", playerName := none } 5000).2 =
          .joined "spectator"
            (getGameState demoEngine
              { game'' with spectators := setAdd game''.spectators "x" })) :=
  ⟨(joinGame_effect demoEngine demoLobby "b" { gameId := "9999", playerName := none } 2000).1
      rfl,
    (joinGame_effect demoEngine demoLobby "b" { gameId := "1234", playerName := none } 2000).2.1
      demoPending rfl rfl rfl,
    ((joinGame_effect demoEngine demoGames "x" { gameId := "1234", playerName := none }
      5000).2.2 demoActive rfl rfl).2 demoTraffic⟩

end SessionTheorems

/-! ## Theorems: cleanup, finished sessions, draws, observers -/

section RegistryTheorems

variable {P M R : Type}

/-- C11: one run of the periodic cleanup at `now` keeps the registry's entries
in order and untouched except for those it removes, and it removes an entry if
and only if its `gameOver` flag is true and `now - createdAt` exceeds
86,400,000 ms; so no entry with `gameOver` false is removed, however old. -/
theorem cleanup_spec (games : Registry P R) (now : Int) :
    List.Sublist (cleanup games now) games ∧
      (∀ entry, entry ∈ cleanup games now ↔
        entry ∈ games ∧ ¬ (entry.2.gameOver = true ∧ now - entry.2.createdAt > 86400000)) ∧
      (∀ entry ∈ games, entry.2.gameOver = false → entry ∈ cleanup games now) := by
  have hmem : ∀ entry, entry ∈ cleanup games now ↔
      entry ∈ games ∧ ¬ (entry.2.gameOver = true ∧ now - entry.2.createdAt > 86400000) := by
    intro entry
    simp only [cleanup, List.mem_filter, Bool.not_eq_true', Bool.and_eq_false_iff,
      decide_eq_false_iff_not, Bool.not_eq_true, not_and]
    constructor
    · rintro ⟨hin, h⟩
      refine ⟨hin, fun hover hold => ?_⟩
      rcases h with h | h
      · exact h (by norm_num at hold ⊢; exact hold)
      · rw [hover] at h; exact absurd h (by simp)
    · rintro ⟨hin, h⟩
      refine ⟨hin, ?_⟩
      by_cases hover : entry.2.gameOver = true
      · left
        intro hold
        exact h hover (by norm_num at hold ⊢; exact hold)
      · right
        simpa using hover
  refine ⟨List.filter_sublist _, hmem, fun entry hin hlive => (hmem entry).mpr ⟨hin, ?_⟩⟩
  rintro ⟨hover, -⟩
  rw [hlive] at hover
  exact absurd hover (by simp)

theorem cleanup_spec_witness :
    demoExpired ∉ cleanup demoAged 86401000 ∧ demoDayOld ∈ cleanup demoAged 86401000 ∧
      demoStale ∈ cleanup demoAged 86401000 :=
  ⟨fun h => (((cleanup_spec demoAged 86401000).2.1 demoExpired).mp h).2 ⟨rfl, by decide⟩,
    ((cleanup_spec demoAged 86401000).2.1 demoDayOld).mpr
      ⟨List.mem_cons_of_mem _ (List.mem_cons_self _ _), fun h => absurd h.2 (by decide)⟩,
    (cleanup_spec demoAged 86401000).2.2 demoStale
      (List.mem_cons_of_mem _ (List.mem_cons_of_mem _ (List.mem_cons_self _ _))) rfl⟩

/-- The shape shared by the handlers that look a session up and mutate it, for
a reflexive relation between the session before and after. -/
theorem update_rel (Rel : Game P R → Game P R → Prop) (hrefl : ∀ g, Rel g g)
    (games : Registry P R) (id k : GameId) (game : Game P R) (f : Game P R → Game P R)
    (hfound : getGame games id = some game) (hf : ∀ g, Rel g (f g)) :
    ∃ game', getGame (match getGame games k with
        | none => games
        | some g => putGame games k (f g)) id = some game' ∧ Rel game game' := by
  cases hk : getGame games k with
  | none => exact ⟨game, hfound, hrefl game⟩
  | some g =>
    by_cases hid : id = k
    · subst hid
      rw [hfound] at hk
      cases hk
      exact ⟨f game, getGame_putGame_same games id game _ hfound, hf game⟩
    · refine ⟨game, ?_, hrefl game⟩
      simp only []
      rw [getGame_putGame_other games k id _ hid]
      exact hfound

theorem disconnect_rel (Rel : Game P R → Game P R → Prop) (hrefl : ∀ g, Rel g g)
    (socketId : SocketId) (id : GameId)
    (hd : ∀ g g' : Game P R, disconnectSession g socketId = some g' → Rel g g') :
    ∀ (games : Registry P R) (game : Game P R), getGame games id = some game →
      ∃ game', getGame (disconnect games socketId).1 id = some game' ∧ Rel game game' := by
  intro games
  induction games with
  | nil => intro game h; simp [getGame] at h
  | cons entry rest ih =>
    obtain ⟨k, g⟩ := entry
    intro game h
    cases hs : disconnectSession g socketId with
    | none =>
      simp only [disconnect, hs]
      exact ⟨game, h, hrefl game⟩
    | some g' =>
      simp only [disconnect, hs]
      by_cases hk : k = id
      · simp only [getGame, hk, if_true, Option.some.injEq] at h ⊢
        subst h
        exact ⟨g', rfl, hd g g' hs⟩
      · simp only [getGame, hk, if_false] at h ⊢
        exact ih game h

/-- A reflexive relation that every session-level handler respects holds
between a registered session before and after any request; `acceptDraw` has to
respect it only when the request is an `acceptDraw` for that session. -/
theorem handle_rel_of (E : RulesEngine P M R) (Rel : Game P R → Game P R → Prop)
    (hrefl : ∀ g, Rel g g)
    (hjoin : ∀ g s n t, Rel g (joinGameSession E g s n t).1)
    (hmove : ∀ g s m t, Rel g (makeMoveSession E g s m t).1)
    (hresign : ∀ g s, Rel g (resignSession g s : Game P R × Response R).1)
    (hdisc : ∀ s (g g' : Game P R), disconnectSession g s = some g' → Rel g g')
    (games : Registry P R) (req : Request M) (id : GameId) (game : Game P R)
    (haccept : req.isAcceptDrawFor id = true → ∀ g, Rel g (acceptDrawSession g))
    (hfound : getGame games id = some game) :
    ∃ game', getGame (handle E games req).1 id = some game' ∧ Rel game game' := by
  cases req with
  | joinGame socketId data now =>
    have h := update_rel Rel hrefl games id data.gameId game
      (fun g => (joinGameSession E g socketId data.playerName now).1) hfound
      (fun g => hjoin g socketId data.playerName now)
    simp only [handle, joinGame]
    cases hk : getGame games data.gameId <;> simpa [hk] using h
  | makeMove socketId data now =>
    have h := update_rel Rel hrefl games id data.gameId game
      (fun g => (makeMoveSession E g socketId data.move now).1) hfound
      (fun g => hmove g socketId data.move now)
    simp only [handle, makeMove]
    cases hk : getGame games data.gameId <;> simpa [hk] using h
  | resign socketId gameId =>
    have h := update_rel Rel hrefl games id gameId game
      (fun g => (resignSession g socketId : Game P R × Response R).1) hfound
      (fun g => hresign g socketId)
    simp only [handle, resign]
    cases hk : getGame games gameId <;> simpa [hk] using h
  | offerDraw socketId gameId => exact ⟨game, hfound, hrefl game⟩
  | acceptDraw socketId gameId =>
    simp only [handle, acceptDraw]
    by_cases hid : gameId = id
    · have h := update_rel Rel hrefl games id gameId game
        (fun g => acceptDrawSession g) hfound
        (haccept (by simp [Request.isAcceptDrawFor, hid]))
      cases hk : getGame games gameId <;> simpa [hk] using h
    · cases hk : getGame games gameId with
      | none => exact ⟨game, hfound, hrefl game⟩
      | some g =>
        refine ⟨game, ?_, hrefl game⟩
        simp only []
        rw [getGame_putGame_other games gameId id _ (fun e => hid e.symm)]
        exact hfound
  | getGameState gameId => exact ⟨game, hfound, hrefl game⟩
  | disconnect socketId =>
    exact disconnect_rel Rel hrefl socketId id (hdisc socketId) games game hfound

theorem handleAll_rel_of (E : RulesEngine P M R) (Rel : Game P R → Game P R → Prop)
    (hrefl : ∀ g, Rel g g) (htrans : ∀ a b c, Rel a b → Rel b c → Rel a c)
    (hjoin : ∀ g s n t, Rel g (joinGameSession E g s n t).1)
    (hmove : ∀ g s m t, Rel g (makeMoveSession E g s m t).1)
    (hresign : ∀ g s, Rel g (resignSession g s : Game P R × Response R).1)
    (hdisc : ∀ s (g g' : Game P R), disconnectSession g s = some g' → Rel g g')
    (reqs : List (Request M)) (id : GameId)
    (haccept : (∃ req ∈ reqs, req.isAcceptDrawFor id = true) →
      ∀ g, Rel g (acceptDrawSession g)) :
    ∀ (games : Registry P R) (game : Game P R), getGame games id = some game →
      ∃ game', getGame (handleAll E games reqs) id = some game' ∧ Rel game game' := by
  induction reqs with
  | nil => intro games game h; exact ⟨game, h, hrefl game⟩
  | cons req rest ih =>
    intro games game h
    obtain ⟨g1, h1, r1⟩ :=
      handle_rel_of E Rel hrefl hjoin hmove hresign hdisc games req id game
        (fun hreq => haccept ⟨req, List.mem_cons_self _ _, hreq⟩) h
    obtain ⟨g2, h2, r2⟩ :=
      ih (fun ⟨r, hr, hreq⟩ => haccept ⟨r, List.mem_cons_of_mem _ hr, hreq⟩)
        (handle E games req).1 g1 h1
    exact ⟨g2, h2, htrans game g1 g2 r1 r2⟩

theorem handleAll_rel (E : RulesEngine P M R) (Rel : Game P R → Game P R → Prop)
    (hrefl : ∀ g, Rel g g) (htrans : ∀ a b c, Rel a b → Rel b c → Rel a c)
    (hjoin : ∀ g s n t, Rel g (joinGameSession E g s n t).1)
    (hmove : ∀ g s m t, Rel g (makeMoveSession E g s m t).1)
    (hresign : ∀ g s, Rel g (resignSession g s : Game P R × Response R).1)
    (haccept : ∀ g, Rel g (acceptDrawSession g))
    (hdisc : ∀ s (g g' : Game P R), disconnectSession g s = some g' → Rel g g')
    (reqs : List (Request M)) (id : GameId) :
    ∀ (games : Registry P R) (game : Game P R), getGame games id = some game →
      ∃ game', getGame (handleAll E games reqs) id = some game' ∧ Rel game game' :=
  handleAll_rel_of E Rel hrefl htrans hjoin hmove hresign hdisc reqs id (fun _ => haccept)

theorem disconnectSession_cases (game game' : Game P R) (socketId : SocketId)
    (h : disconnectSession game socketId = some game') :
    game' = { game with spectators := setDelete game.spectators socketId } ∨
      (game.gameOver = false ∧ ∃ winner,
        game' = { game with
          gameOver := true,
          result := some { winner := winner, reason := "abandonment" },
          spectators := setDelete game.spectators socketId }) := by
  unfold disconnectSession at h
  by_cases hocc : game.players.white.map Player.id = some socketId ∨
      game.players.black.map Player.id = some socketId
  · rw [if_pos hocc] at h
    cases hover : game.gameOver with
    | true =>
      simp only [hover, Bool.not_true, Bool.false_eq_true, if_false, Option.some.injEq] at h
      exact Or.inl h.symm
    | false =>
      simp only [hover, Bool.not_false, if_true] at h
      cases hw : game.players.white with
      | none => simp [hw] at h
      | some w =>
        simp only [hw, Option.some.injEq] at h
        exact Or.inr ⟨rfl, _, h.symm⟩
  · rw [if_neg hocc] at h
    simp only [Option.some.injEq] at h
    exact Or.inl h.symm

theorem frozen_refl (g : Game P R) : Frozen g g :=
  fun h => ⟨h, rfl, rfl, rfl, rfl⟩

theorem frozen_trans (a b c : Game P R) (hab : Frozen a b) (hbc : Frozen b c) : Frozen a c := by
  intro h
  obtain ⟨h1, h2, h3, h4, h5⟩ := hab h
  obtain ⟨k1, k2, k3, k4, k5⟩ := hbc h1
  exact ⟨k1, k2.trans h2, k3.trans h3, k4.trans h4, k5.trans h5⟩

/-- C12: finished is absorbing. For a registered session with `gameOver` true
and every list of later requests of any kind (`joinGame`, `makeMove`, `resign`,
`offerDraw`, `acceptDraw`, `getGameState`, `disconnect`), the session is still
registered under its id afterwards with `gameOver` true and with `result`,
position, move history and clocks unchanged. -/
theorem finished_is_absorbing (E : RulesEngine P M R) (games : Registry P R) (id : GameId)
    (game : Game P R) (reqs : List (Request M))
    (hfound : getGame games id = some game) (hover : game.gameOver = true) :
    ∃ game', getGame (handleAll E games reqs) id = some game' ∧
      game'.gameOver = true ∧ game'.result = game.result ∧ game'.chess = game.chess ∧
      game'.moveHistory = game.moveHistory ∧ game'.clocks = game.clocks := by
  obtain ⟨game', hg, hrel⟩ := handleAll_rel E Frozen frozen_refl frozen_trans
    (fun g s n t h => by
      unfold joinGameSession
      by_cases hs : g.gameStarted = true
      · rw [if_pos hs]; exact ⟨h, rfl, rfl, rfl, rfl⟩
      · rw [if_neg hs]
        by_cases hb : g.players.black.isNone = true
        · rw [if_pos hb]; exact ⟨h, rfl, rfl, rfl, rfl⟩
        · rw [if_neg hb]; exact ⟨h, rfl, rfl, rfl, rfl⟩)
    (fun g s m t h => by
      have : makeMoveSession E g s m t = (g, .error "Game is over") := by
        simp [makeMoveSession, h]
      rw [this]; exact ⟨h, rfl, rfl, rfl, rfl⟩)
    (fun g s h => by
      have : (resignSession g s : Game P R × Response R) = (g, .silent) := by
        simp [resignSession, h]
      rw [this]; exact ⟨h, rfl, rfl, rfl, rfl⟩)
    (fun g h => by
      have : acceptDrawSession g = g := by simp [acceptDrawSession, h]
      rw [this]; exact ⟨h, rfl, rfl, rfl, rfl⟩)
    (fun s g g' hd h => by
      rcases disconnectSession_cases g g' s hd with hg | ⟨hlive, -⟩
      · rw [hg]; exact ⟨h, rfl, rfl, rfl, rfl⟩
      · rw [h] at hlive; exact absurd hlive (by simp))
    reqs id games game hfound
  exact ⟨game', hg, hrel hover⟩

theorem finished_is_absorbing_witness :
    ∃ game', getGame (handleAll demoEngine demoFinishedGames demoAllKinds) "1234" = some game' ∧
      game'.gameOver = true ∧ game'.result = demoResigned.result ∧
      game'.chess = demoResigned.chess ∧ game'.moveHistory = demoResigned.moveHistory ∧
      game'.clocks = demoResigned.clocks :=
  finished_is_absorbing demoEngine demoFinishedGames "1234" demoResigned demoAllKinds rfl rfl

theorem updateClock_cases (game : Game P R) (turn : Color) (now : Int) :
    updateClock game turn now = (game, false) ∨
    (∃ clocks, updateClock game turn now = ({ game with clocks := clocks }, false)) ∨
    (∃ clocks, updateClock game turn now =
      ({ game with
          clocks := clocks,
          gameOver := true,
          result := some { winner := some turn.other, reason := "timeout" } }, true)) := by
  cases hl : game.lastMoveTime with
  | none => left; simp [updateClock, hl]
  | some t =>
    by_cases ht : t = 0
    · left; simp [updateClock, hl, ht]
    · by_cases hf : game.clocks.get turn ≤ now - t
      · right; right
        rw [← hl]
        exact ⟨_, updateClock_flagged game turn now t hl ht hf⟩
      · right; left
        have hin : now - t < game.clocks.get turn := by omega
        rw [← hl]
        exact ⟨_, updateClock_in_time game turn now t hl ht hin⟩

theorem gameOverResult_cases (E : RulesEngine P M R) (chess : P) (result : Option Result) :
    gameOverResult E chess result = result ∨
      ∃ winner reason, gameOverResult E chess result =
          some { winner := winner, reason := reason } ∧
        reason ∈ ["checkmate", "draw", "stalemate", "repetition", "insufficient_material"] := by
  unfold gameOverResult
  split
  · exact Or.inr ⟨_, _, rfl, by simp⟩
  · split
    · exact Or.inr ⟨_, _, rfl, by simp⟩
    · split
      · exact Or.inr ⟨_, _, rfl, by simp⟩
      · split
        · exact Or.inr ⟨_, _, rfl, by simp⟩
        · split
          · exact Or.inr ⟨_, _, rfl, by simp⟩
          · exact Or.inl rfl

theorem tryMove_notByAgreement (E : RulesEngine P M R) (game : Game P R) (move : M)
    (now : MoveClock) : NotByAgreement game (tryMove E game move now).1 := by
  unfold tryMove
  cases E.move game.chess move with
  | accepted next mv =>
    simp only []
    by_cases hover : E.isGameOver next = true
    · rw [if_pos hover]
      rcases gameOverResult_cases E next game.result with h | ⟨w, r, h, hr⟩
      · exact Or.inl h
      · refine Or.inr ⟨w, r, h, ?_⟩
        intro e
        rw [e] at hr
        revert hr
        decide
    · rw [if_neg hover]
      exact Or.inl rfl
  | null => exact Or.inl rfl
  | threw message => exact Or.inl rfl

theorem makeMoveSession_notByAgreement (E : RulesEngine P M R) (game : Game P R)
    (socketId : SocketId) (move : M) (now : MoveClock) :
    NotByAgreement game (makeMoveSession E game socketId move now).1 := by
  rcases makeMoveSession_cases E game socketId move now with ⟨response, h⟩ | h | h
  · rw [h]; exact Or.inl rfl
  · rw [h]
    rcases updateClock_cases game (E.turn game.chess) now.debit with hu | ⟨c, hu⟩ | ⟨c, hu⟩
    · rw [hu]; exact Or.inl rfl
    · rw [hu]; exact Or.inl rfl
    · rw [hu]; exact Or.inr ⟨_, _, rfl, by decide⟩
  · rw [h]
    have ht := tryMove_notByAgreement E (updateClock game (E.turn game.chess) now.debit).1
      move now
    rcases updateClock_cases game (E.turn game.chess) now.debit with hu | ⟨c, hu⟩ | ⟨c, hu⟩
    · rw [hu] at ht ⊢; exact ht
    · rw [hu] at ht ⊢; exact ht
    · rw [hu] at ht ⊢
      rcases ht with ht | ⟨w, r, ht, hr⟩
      · exact Or.inr ⟨_, _, ht, by decide⟩
      · exact Or.inr ⟨w, r, ht, hr⟩

theorem agreed_of_notByAgreement (old new : Game P R) (h : NotByAgreement old new)
    (hnew : Agreed new) : Agreed old := by
  obtain ⟨w, hw⟩ := hnew
  rcases h with h | ⟨w', r, h, hr⟩
  · exact ⟨w, h ▸ hw⟩
  · rw [h] at hw
    simp only [Option.some.injEq, Result.mk.injEq] at hw
    exact absurd hw.2 hr

/-- C13 (amended): `offerDraw` by itself changes nothing in the registry; an
`acceptDraw` for a not-finished session finishes it with `{winner: null,
reason: 'agreement'}` whoever sends it and whether or not a draw was offered,
leaving position, history and clocks; and a session ends with reason
`'agreement'` only through an `acceptDraw` request for it: after any list of
requests none of which is an `acceptDraw` for the session, its result has
reason `'agreement'` only if it had before. -/
theorem agreement_only_by_acceptDraw (E : RulesEngine P M R) (games : Registry P R)
    (id : GameId) (game : Game P R) (hfound : getGame games id = some game) :
    (∀ socketId gameId, handle E games (.offerDraw socketId gameId) = (games, .silent)) ∧
    (∀ socketId, game.gameOver = false →
      ∃ game', getGame (handle E games (.acceptDraw socketId id)).1 id = some game' ∧
        game'.gameOver = true ∧
        game'.result = some { winner := none, reason := "agreement" } ∧
        game'.chess = game.chess ∧ game'.moveHistory = game.moveHistory ∧
        game'.clocks = game.clocks) ∧
    (∀ reqs : List (Request M), (∀ req ∈ reqs, req.isAcceptDrawFor id = false) →
      ∃ game', getGame (handleAll E games reqs) id = some game' ∧
        (Agreed game' → Agreed game)) := by
  refine ⟨fun _ _ => rfl, ?_, ?_⟩
  · intro socketId hlive
    have hs : acceptDrawSession game =
        { game with gameOver := true, result := some { winner := none, reason := "agreement" } } := by
      simp [acceptDrawSession, hlive]
    simp only [handle, acceptDraw, hfound, hs]
    exact ⟨_, getGame_putGame_same games id game _ hfound, rfl, rfl, rfl, rfl, rfl⟩
  · intro reqs hnone
    refine handleAll_rel_of E (fun g g' => Agreed g' → Agreed g) (fun _ h => h)
      (fun _ _ _ hab hbc h => hab (hbc h)) ?_ ?_ ?_ ?_ reqs id ?_ games game hfound
    · intro g s n t
      refine agreed_of_notByAgreement _ _ (Or.inl ?_)
      unfold joinGameSession
      by_cases hs : g.gameStarted = true
      · rw [if_pos hs]
      · rw [if_neg hs]
        by_cases hb : g.players.black.isNone = true
        · rw [if_pos hb]
        · rw [if_neg hb]
    · intro g s m t
      exact agreed_of_notByAgreement _ _ (makeMoveSession_notByAgreement E g s m t)
    · intro g s
      refine agreed_of_notByAgreement _ _ ?_
      unfold resignSession
      by_cases hover : (!g.gameOver) = true
      · rw [if_pos hover]
        cases g.players.white with
        | none => exact Or.inl rfl
        | some w => exact Or.inr ⟨_, _, rfl, by decide⟩
      · rw [if_neg hover]; exact Or.inl rfl
    · intro s g g' hd
      refine agreed_of_notByAgreement _ _ ?_
      rcases disconnectSession_cases g g' s hd with hg | ⟨-, w, hg⟩
      · rw [hg]; exact Or.inl rfl
      · rw [hg]; exact Or.inr ⟨_, _, rfl, by decide⟩
    · rintro ⟨req, hreq, hacc⟩
      rw [hnone req hreq] at hacc
      exact absurd hacc (by simp)

theorem agreement_only_by_acceptDraw_witness :
    handle demoEngine demoGames (.offerDraw "w" "1234") = (demoGames, .silent) ∧
    (∃ game', getGame (handle demoEngine demoGames (.acceptDraw "b" "1234")).1 "1234" =
          some game' ∧
        game'.gameOver = true ∧
        game'.result = some { winner := none, reason := "agreement" } ∧
        game'.chess = demoActive.chess ∧ game'.moveHistory = demoActive.moveHistory ∧
        game'.clocks = demoActive.clocks) ∧
    (∃ game', getGame (handleAll demoEngine demoGames demoTraffic) "1234" = some game' ∧
        (Agreed game' → Agreed demoActive)) :=
  ⟨(agreement_only_by_acceptDraw demoEngine demoGames "1234" demoActive rfl).1 "w" "1234",
    (agreement_only_by_acceptDraw demoEngine demoGames "1234" demoActive rfl).2.1 "b" rfl,
    (agreement_only_by_acceptDraw demoEngine demoGames "1234" demoActive rfl).2.2 demoTraffic
      (by decide)⟩

/-- C13 (counterexample): from the lobby, `"b"` joins and then the connection
`"x"`, which holds no seat, sends `acceptDraw`. No request of the run is an
`offerDraw`, yet the session is finished with reason `'agreement'`. -/
theorem acceptDraw_without_offer :
    demoNoOffer.any Request.isOfferDraw = false ∧
      ∃ game', getGame (handleAll demoEngine demoLobby demoNoOffer) "1234" = some game' ∧
        sideOf game' "x" = none ∧ game'.gameOver = true ∧
        game'.result = some { winner := none, reason := "agreement" } :=
  ⟨rfl, _, rfl, rfl, rfl, rfl⟩

/-- A connection on neither seat is taken for black by the turn check of
`makeMove`: while white is to move it is answered `'Not your turn'`. -/
theorem makeMoveSession_observer_white_to_move (E : RulesEngine P M R) (game : Game P R)
    (socketId : SocketId) (move : M) (now : MoveClock)
    (hlive : game.gameOver = false) (hwhite : game.players.white.isSome = true)
    (hside : sideOf game socketId = none) (hturn : E.turn game.chess = Color.white) :
    makeMoveSession E game socketId move now = (game, .error "Not your turn") := by
  obtain ⟨w, hw⟩ := white_of_isSome game hwhite
  have hne : ¬ w.id = socketId := by
    intro e
    have := (sideOf_eq_none_iff game socketId).mp hside
    exact this (Or.inl (by simp [hw, e]))
  simp [makeMoveSession, hlive, hw, hne, hturn]

/-- C14 (the code at the failing input): in `demoGames` white moves, `"x"` joins
and is admitted as a spectator, and black is to move. The spectator `"x"`, on
neither seat, then sends a move: the answer is success, the position advances
from `1` to `2`, the history gains a second entry and black's clock is debited
and credited (`300000 - 1000 + 5000`). -/
theorem observer_move_is_accepted :
    (∃ before, getGame (handleAll demoEngine demoGames demoObserverSetup) "1234" = some before ∧
        sideOf before "x" = none ∧ "x" ∈ before.spectators ∧ before.gameOver = false ∧
        before.chess = 1 ∧ before.moveHistory.length = 1 ∧ before.clocks.black = 300000) ∧
      (handle demoEngine (handleAll demoEngine demoGames demoObserverSetup)
        demoObserverMove).2 = .moved 7 ∧
      ∃ after, getGame (handle demoEngine (handleAll demoEngine demoGames demoObserverSetup)
          demoObserverMove).1 "1234" = some after ∧
        after.chess = 2 ∧ after.moveHistory.length = 2 ∧ after.clocks.black = 304000 :=
  ⟨⟨_, rfl, rfl, by decide, rfl, rfl, rfl, rfl⟩, rfl, _, rfl, rfl, rfl, rfl⟩

end RegistryTheorems

/-! ## Theorems: session creation and the clock invariant -/

section CreationTheorems

variable {P M R : Type}

theorem repr_four_digits (n : Nat) (h1 : 1000 ≤ n) (h2 : n ≤ 9999) :
    Nat.repr n = String.mk [Nat.digitChar (n / 1000), Nat.digitChar (n / 100 % 10),
      Nat.digitChar (n / 10 % 10), Nat.digitChar (n % 10)] := by
  obtain ⟨k, rfl⟩ : ∃ k, n = k + 4 := ⟨n - 4, by omega⟩
  have e1 : ¬ (k + 4) / 10 = 0 := by omega
  have e2 : ¬ (k + 4) / 100 = 0 := by omega
  have e3 : ¬ (k + 4) / 1000 = 0 := by omega
  have e4 : (k + 4) / 10000 = 0 := by omega
  have e5 : (k + 4) / 1000 % 10 = (k + 4) / 1000 := by omega
  simp only [Nat.repr, Nat.toDigits, Nat.toDigitsCore, List.asString, Nat.div_div_eq_div_mul,
    Nat.reduceMul, e1, e2, e3, e4, e5, if_true, if_false]

/-- A value drawn in `[0, 1)` gives a room code between 1000 and 9999. -/
theorem roomCode_bounds (r : ℚ) (h0 : 0 ≤ r) (h1 : r < 1) :
    1000 ≤ ⌊1000 + r * 9000⌋.toNat ∧ ⌊1000 + r * 9000⌋.toNat ≤ 9999 := by
  have ha : (1000 : ℤ) ≤ ⌊1000 + r * 9000⌋ := by
    apply Int.le_floor.mpr
    push_cast
    nlinarith
  have hb : ⌊1000 + r * 9000⌋ < 10000 := by
    apply Int.floor_lt.mpr
    push_cast
    nlinarith
  omega

/-- The loop ends with a code that is not a key of the registry and that is the
code it started with or the code of one of the draws. -/
theorem freshGameId_spec (games : Registry P R) (draws : List ℚ) :
    ∀ (start id : GameId) (rest : List ℚ), freshGameId games start draws = some (id, rest) →
      hasGame games id = false ∧ (id = start ∨ ∃ r ∈ draws, id = roomCode r) := by
  induction draws with
  | nil =>
    intro start id rest h
    unfold freshGameId at h
    by_cases hh : hasGame games start = true
    · rw [if_pos hh] at h; simp at h
    · rw [if_neg hh] at h
      simp only [Option.some.injEq, Prod.mk.injEq] at h
      exact ⟨by rw [← h.1]; simpa using hh, Or.inl h.1.symm⟩
  | cons r tail ih =>
    intro start id rest h
    unfold freshGameId at h
    by_cases hh : hasGame games start = true
    · rw [if_pos hh] at h
      obtain ⟨hfree, hid⟩ := ih (roomCode r) id rest h
      refine ⟨hfree, Or.inr ?_⟩
      rcases hid with hid | ⟨r', hr', hid⟩
      · exact ⟨r, List.mem_cons_self _ _, hid⟩
      · exact ⟨r', List.mem_cons_of_mem _ hr', hid⟩
    · rw [if_neg hh] at h
      simp only [Option.some.injEq, Prod.mk.injEq] at h
      exact ⟨by rw [← h.1]; simpa using hh, Or.inl h.1.symm⟩

theorem getGame_append_new (games : Registry P R) (id k : GameId) (game : Game P R) :
    getGame (games ++ [(id, game)]) k =
      match getGame games k with
      | some g => some g
      | none => if id = k then some game else none := by
  induction games with
  | nil => simp [getGame]
  | cons entry rest ih =>
    obtain ⟨k', g'⟩ := entry
    by_cases hk : k' = k
    · simp [getGame, hk]
    · simp only [List.cons_append, getGame, hk, if_false]
      exact ih

/-- The shape of what `createGame` returns. -/
theorem createGame_returns (E : RulesEngine P M R) (newChess : Option String → Option P)
    (games : Registry P R) (config : CreateConfig) (draws : List ℚ) (now : Int)
    (game : Game P R) (games' : Registry P R)
    (hret : createGame E newChess games config draws now = some (game, games')) :
    hasGame games game.id = false ∧ (∃ r ∈ draws, game.id = roomCode r) ∧
      games' = games ++ [(game.id, game)] ∧
      game.players = { white := none, black := none } ∧
      game.gameStarted = false ∧ game.gameOver = false ∧ game.result = none ∧
      game.moveHistory = [] ∧ game.lastMoveTime = none ∧
      game.clocks.white = orDefaultInt (config.timeLimit.map fun t => t * 1000) 300000 ∧
      game.clocks.black = orDefaultInt (config.timeLimit.map fun t => t * 1000) 300000 ∧
      game.config.increment = orDefaultInt config.increment 0 := by
  unfold createGame at hret
  cases draws with
  | nil => simp at hret
  | cons r rest =>
    simp only [] at hret
    cases hf : freshGameId games (roomCode r) rest with
    | none => simp [hf] at hret
    | some found =>
      obtain ⟨gameId, rest'⟩ := found
      obtain ⟨hfree, hid⟩ := freshGameId_spec games rest (roomCode r) gameId rest' hf
      cases hs : startOf E newChess config rest' with
      | none => simp [hf, hs] at hret
      | some made =>
        obtain ⟨chess, startPosition⟩ := made
        simp only [hf, hs, Option.some.injEq, Prod.mk.injEq] at hret
        obtain ⟨hg, hgames⟩ := hret
        subst hg
        refine ⟨hfree, ?_, ?_, rfl, rfl, rfl, rfl, rfl, rfl, rfl, rfl, rfl⟩
        · rcases hid with hid | ⟨r', hr', hid⟩
          · exact ⟨r, List.mem_cons_self _ _, hid⟩
          · exact ⟨r', List.mem_cons_of_mem _ hr', hid⟩
        · rw [← hgames]
          simp only [setGame, hfree, Bool.false_eq_true, if_false]

/-- C15: when `createGame` returns, the values drawn by `Math.random()` lying in
`[0, 1)`, the new session's id is the decimal string of an integer `n` with
`1000 ≤ n ≤ 9999`, four characters long, and was not a key of the registry;
afterwards the registry maps that id to the new session and every session
stored before is still found under its id, unchanged. The new session has
`gameStarted` false, `gameOver` false, `result` null, an empty move history,
`lastMoveTime` null and both clocks at `timeLimit * 1000`, or `300000` when
`timeLimit` is absent or `0`. -/
theorem createGame_spec (E : RulesEngine P M R) (newChess : Option String → Option P)
    (games : Registry P R) (config : CreateConfig) (draws : List ℚ) (now : Int)
    (game : Game P R) (games' : Registry P R)
    (hdraws : ∀ r ∈ draws, 0 ≤ r ∧ r < 1)
    (hret : createGame E newChess games config draws now = some (game, games')) :
    (∃ n : Nat, 1000 ≤ n ∧ n ≤ 9999 ∧ game.id = Nat.repr n ∧
      game.id = String.mk [Nat.digitChar (n / 1000), Nat.digitChar (n / 100 % 10),
        Nat.digitChar (n / 10 % 10), Nat.digitChar (n % 10)]) ∧
    game.id.length = 4 ∧
    getGame games game.id = none ∧
    getGame games' game.id = some game ∧
    (∀ k g, getGame games k = some g → getGame games' k = some g) ∧
    game.gameStarted = false ∧ game.gameOver = false ∧ game.result = none ∧
    game.moveHistory = [] ∧ game.lastMoveTime = none ∧
    game.clocks.black = game.clocks.white ∧
    (config.timeLimit = none ∨ config.timeLimit = some 0 → game.clocks.white = 300000) ∧
    (∀ t, config.timeLimit = some t → t ≠ 0 → game.clocks.white = t * 1000) := by
  obtain ⟨hfree, ⟨r, hr, hid⟩, hgames, -, h1, h2, h3, h4, h5, hw, hb, -⟩ :=
    createGame_returns E newChess games config draws now game games' hret
  have hnone : getGame games game.id = none := by
    simpa [hasGame] using hfree
  obtain ⟨hlo, hhi⟩ := roomCode_bounds r (hdraws r hr).1 (hdraws r hr).2
  have hdigits := repr_four_digits _ hlo hhi
  refine ⟨⟨_, hlo, hhi, hid, hid.trans hdigits⟩, ?_, hnone, ?_, ?_, h1, h2, h3, h4, h5,
    hb.trans hw.symm, ?_, ?_⟩
  · rw [hid, roomCode, hdigits]
    rfl
  · rw [hgames, getGame_append_new, hnone]
    simp
  · intro k g hk
    rw [hgames, getGame_append_new, hk]
  · rintro (h | h) <;> simp [hw, h, orDefaultInt]
  · intro t ht hne
    have : t * 1000 ≠ 0 := by omega
    simp [hw, ht, orDefaultInt, this]

theorem roomCode_tenth : roomCode (1 / 10) = "1900" := by
  norm_num [roomCode]
  rfl

theorem createGame_demo :
    createGame demoEngine demoNewChess demoGames demoConfig [1 / 10] 7000 =
      some (demoCreated, demoGames ++ [("1900", demoCreated)]) := by
  simp only [createGame, roomCode_tenth, freshGameId]
  rfl

theorem createGame_spec_witness :
    (∃ n : Nat, 1000 ≤ n ∧ n ≤ 9999 ∧ demoCreated.id = Nat.repr n ∧
      demoCreated.id = String.mk [Nat.digitChar (n / 1000), Nat.digitChar (n / 100 % 10),
        Nat.digitChar (n / 10 % 10), Nat.digitChar (n % 10)]) ∧
    demoCreated.id.length = 4 ∧
    getGame demoGames demoCreated.id = none ∧
    getGame (demoGames ++ [("1900", demoCreated)]) demoCreated.id = some demoCreated ∧
    (∀ k g, getGame demoGames k = some g →
      getGame (demoGames ++ [("1900", demoCreated)]) k = some g) ∧
    demoCreated.gameStarted = false ∧ demoCreated.gameOver = false ∧
    demoCreated.result = none ∧ demoCreated.moveHistory = [] ∧
    demoCreated.lastMoveTime = none ∧
    demoCreated.clocks.black = demoCreated.clocks.white ∧
    (demoConfig.timeLimit = none ∨ demoConfig.timeLimit = some 0 →
      demoCreated.clocks.white = 300000) ∧
    (∀ t, demoConfig.timeLimit = some t → t ≠ 0 → demoCreated.clocks.white = t * 1000) :=
  createGame_spec demoEngine demoNewChess demoGames demoConfig [1 / 10] 7000 demoCreated
    (demoGames ++ [("1900", demoCreated)])
    (by intro r hr; rw [List.mem_singleton] at hr; subst hr; norm_num)
    createGame_demo

theorem makeMoveSession_cases_live (E : RulesEngine P M R) (game : Game P R)
    (socketId : SocketId) (move : M) (now : MoveClock) :
    (∃ response, makeMoveSession E game socketId move now = (game, response)) ∨
    (game.gameOver = false ∧ (updateClock game (E.turn game.chess) now.debit).2 = true ∧
      makeMoveSession E game socketId move now =
        ((updateClock game (E.turn game.chess) now.debit).1, .error "Time ran out")) ∨
    (game.gameOver = false ∧ (updateClock game (E.turn game.chess) now.debit).2 = false ∧
      makeMoveSession E game socketId move now =
        tryMove E (updateClock game (E.turn game.chess) now.debit).1 move now) := by
  unfold makeMoveSession
  by_cases hover : game.gameOver = true
  · left; exact ⟨_, by rw [if_pos hover]⟩
  · have hlive : game.gameOver = false := by simpa using hover
    rw [if_neg hover]
    cases hw : game.players.white with
    | none => left; exact ⟨_, rfl⟩
    | some w =>
      simp only []
      by_cases hturn : (E.turn game.chess = Color.white ∧
          (if w.id = socketId then Color.white else Color.black) ≠ Color.white) ∨
          (E.turn game.chess = Color.black ∧
          (if w.id = socketId then Color.white else Color.black) ≠ Color.black)
      · left; exact ⟨_, by rw [if_pos hturn]⟩
      · right
        rw [if_neg hturn]
        rcases updateClock game (E.turn game.chess) now.debit with ⟨g1, b⟩
        cases b
        · right; exact ⟨hlive, rfl, rfl⟩
        · left; exact ⟨hlive, rfl, rfl⟩

/-- The invariant passes to a session with the same clocks and increment whose
`gameOver` and `result` are the old ones unless the old session was unfinished. -/
theorem clockInvariant_of_same_clocks (old new : Game P R)
    (hclocks : new.clocks = old.clocks) (hconfig : new.config = old.config)
    (h : old.gameOver = false ∨ (new.gameOver = old.gameOver ∧ new.result = old.result))
    (hinv : ClockInvariant old) : ClockInvariant new := by
  obtain ⟨hinc, hcases⟩ := hinv
  refine ⟨by rw [hconfig]; exact hinc, ?_⟩
  rcases hcases with hpos | ⟨hover, hres⟩
  · left; rw [hclocks]; exact hpos
  · rcases h with h | ⟨h1, h2⟩
    · rw [hover] at h; exact absurd h (by simp)
    · right; rw [h1, h2]; exact ⟨hover, hres⟩

theorem updateClock_invariant (game : Game P R) (turn : Color) (now : Int)
    (hlive : game.gameOver = false) (hinv : ClockInvariant game) :
    ClockInvariant (updateClock game turn now).1 ∧
      ((updateClock game turn now).2 = false →
        (updateClock game turn now).1.gameOver = false) := by
  obtain ⟨hinc, hcases⟩ := hinv
  have hpos : 0 < game.clocks.white ∧ 0 < game.clocks.black := by
    rcases hcases with h | ⟨h, -⟩
    · exact h
    · rw [hlive] at h; exact absurd h (by simp)
  cases hl : game.lastMoveTime with
  | none =>
    have : updateClock game turn now = (game, false) := by simp [updateClock, hl]
    rw [this]; exact ⟨⟨hinc, Or.inl hpos⟩, fun _ => hlive⟩
  | some t =>
    by_cases ht : t = 0
    · have : updateClock game turn now = (game, false) := by simp [updateClock, hl, ht]
      rw [this]; exact ⟨⟨hinc, Or.inl hpos⟩, fun _ => hlive⟩
    · by_cases hf : game.clocks.get turn ≤ now - t
      · rw [updateClock_flagged game turn now t hl ht hf]
        exact ⟨⟨hinc, Or.inr ⟨rfl, _, rfl⟩⟩, fun h => by simp at h⟩
      · have hin : now - t < game.clocks.get turn := by omega
        rw [updateClock_in_time game turn now t hl ht hin]
        refine ⟨⟨hinc, Or.inl ?_⟩, fun _ => hlive⟩
        have hprod : 0 ≤ game.config.increment * 1000 := by omega
        cases turn
        · simp only [Clocks.get, Clocks.set] at hin ⊢
          exact ⟨by omega, hpos.2⟩
        · simp only [Clocks.get, Clocks.set] at hin ⊢
          exact ⟨hpos.1, by omega⟩

theorem tryMove_clocks (E : RulesEngine P M R) (game : Game P R) (move : M) (now : MoveClock) :
    (tryMove E game move now).1.clocks = game.clocks ∧
      (tryMove E game move now).1.config = game.config := by
  unfold tryMove
  cases E.move game.chess move with
  | accepted next mv =>
    simp only []
    by_cases hover : E.isGameOver next = true
    · rw [if_pos hover]; exact ⟨rfl, rfl⟩
    · rw [if_neg hover]; exact ⟨rfl, rfl⟩
  | null => exact ⟨rfl, rfl⟩
  | threw message => exact ⟨rfl, rfl⟩

theorem makeMoveSession_invariant (E : RulesEngine P M R) (game : Game P R)
    (socketId : SocketId) (move : M) (now : MoveClock) (hinv : ClockInvariant game) :
    ClockInvariant (makeMoveSession E game socketId move now).1 := by
  rcases makeMoveSession_cases_live E game socketId move now with
    ⟨response, h⟩ | ⟨hlive, -, h⟩ | ⟨hlive, hflag, h⟩
  · rw [h]; exact hinv
  · rw [h]; exact (updateClock_invariant game _ now.debit hlive hinv).1
  · rw [h]
    obtain ⟨hu, hstill⟩ := updateClock_invariant game (E.turn game.chess) now.debit hlive hinv
    obtain ⟨hc, hcfg⟩ := tryMove_clocks E (updateClock game (E.turn game.chess) now.debit).1
      move now
    exact clockInvariant_of_same_clocks _ _ hc hcfg (Or.inl (hstill hflag)) hu

theorem handleAll_invariant (E : RulesEngine P M R) (reqs : List (Request M)) (id : GameId)
    (games : Registry P R) (game : Game P R) (hfound : getGame games id = some game)
    (hinv : ClockInvariant game) :
    ∃ game', getGame (handleAll E games reqs) id = some game' ∧ ClockInvariant game' := by
  obtain ⟨game', hg, hrel⟩ := handleAll_rel E (fun g g' => ClockInvariant g → ClockInvariant g')
    (fun _ h => h) (fun _ _ _ hab hbc h => hbc (hab h))
    (fun g s n t => by
      refine clockInvariant_of_same_clocks _ _ ?_ ?_ (Or.inr ⟨?_, ?_⟩) <;>
      · unfold joinGameSession
        by_cases hs : g.gameStarted = true
        · rw [if_pos hs]
        · rw [if_neg hs]
          by_cases hb : g.players.black.isNone = true
          · rw [if_pos hb]
          · rw [if_neg hb])
    (fun g s m t => makeMoveSession_invariant E g s m t)
    (fun g s => by
      unfold resignSession
      by_cases hover : (!g.gameOver) = true
      · rw [if_pos hover]
        cases g.players.white with
        | none => exact fun h => h
        | some w =>
          exact clockInvariant_of_same_clocks _ _ rfl rfl (Or.inl (by simpa using hover))
      · rw [if_neg hover]; exact fun h => h)
    (fun g => by
      unfold acceptDrawSession
      by_cases hover : (!g.gameOver) = true
      · rw [if_pos hover]
        exact clockInvariant_of_same_clocks _ _ rfl rfl (Or.inl (by simpa using hover))
      · rw [if_neg hover]; exact fun h => h)
    (fun s g g' hd => by
      rcases disconnectSession_cases g g' s hd with hg | ⟨hlive, w, hg⟩
      · rw [hg]; exact clockInvariant_of_same_clocks _ _ rfl rfl (Or.inr ⟨rfl, rfl⟩)
      · rw [hg]; exact clockInvariant_of_same_clocks _ _ rfl rfl (Or.inl hlive))
    reqs id games game hfound
  exact ⟨game', hg, hrel hinv⟩

/-- A session created with a non-negative time limit and increment is stored
with the clock invariant. -/
theorem createGameRequest_invariant (E : RulesEngine P M R)
    (newChess : Option String → Option P) (games games' : Registry P R) (socketId : SocketId)
    (config : CreateConfig) (draws : List ℚ) (now : Int) (id : GameId)
    (hcreate : createGameRequest E newChess games socketId config draws now = (games', some id))
    (htime : ∀ t, config.timeLimit = some t → 0 ≤ t)
    (hinc : ∀ i, config.increment = some i → 0 ≤ i) :
    ∃ game, getGame games' id = some game ∧ ClockInvariant game ∧
      game.players.white.isSome = true := by
  unfold createGameRequest at hcreate
  cases hc : createGame E newChess games config draws now with
  | none => simp [hc] at hcreate
  | some made =>
    obtain ⟨game, games1⟩ := made
    simp only [hc, Prod.mk.injEq, Option.some.injEq] at hcreate
    obtain ⟨hgames, hid⟩ := hcreate
    obtain ⟨hfree, -, hg1, -, -, -, -, -, -, hw, hb, hi⟩ :=
      createGame_returns E newChess games config draws now game games1 hc
    have hnone : getGame games game.id = none := by simpa [hasGame] using hfree
    have hfound : getGame games1 game.id = some game := by
      rw [hg1, getGame_append_new, hnone]; simp
    have hclock : 0 < orDefaultInt (config.timeLimit.map fun t => t * 1000) 300000 := by
      cases ht : config.timeLimit with
      | none => simp [orDefaultInt]
      | some t =>
        have := htime t ht
        simp only [Option.map_some', orDefaultInt]
        split
        · norm_num
        · omega
    have hincr : 0 ≤ orDefaultInt config.increment 0 := by
      cases hi' : config.increment with
      | none => simp [orDefaultInt]
      | some i =>
        have := hinc i hi'
        simp only [orDefaultInt]
        split
        · exact le_refl 0
        · exact this
    refine ⟨{ game with
        players := { game.players with
          white := some { id := socketId, name := orDefault config.playerName "Player 1" } } },
      ?_, ⟨?_, Or.inl ⟨?_, ?_⟩⟩, rfl⟩
    · rw [← hid, ← hgames]
      exact getGame_putGame_same games1 game.id game _ hfound
    · show 0 ≤ game.config.increment
      rw [hi]; exact hincr
    · show 0 < game.clocks.white
      rw [hw]; exact hclock
    · show 0 < game.clocks.black
      rw [hb]; exact hclock

/-- C16: for a session created by the `createGame` handler with `timeLimit ≥ 0`
and `increment ≥ 0` (or left out) and every list of requests handled after its
creation, the session is still registered under its id and, if `gameOver` is
false, both stored clocks are positive; a stored clock `≤ 0` occurs only with
`gameOver` true and reason `'timeout'`. -/
theorem clock_invariant (E : RulesEngine P M R) (newChess : Option String → Option P)
    (games games' : Registry P R) (socketId : SocketId) (config : CreateConfig)
    (draws : List ℚ) (now : Int) (id : GameId) (reqs : List (Request M))
    (hcreate : createGameRequest E newChess games socketId config draws now = (games', some id))
    (htime : ∀ t, config.timeLimit = some t → 0 ≤ t)
    (hinc : ∀ i, config.increment = some i → 0 ≤ i) :
    ∃ game, getGame (handleAll E games' reqs) id = some game ∧
      (game.gameOver = false → 0 < game.clocks.white ∧ 0 < game.clocks.black) ∧
      (game.clocks.white ≤ 0 ∨ game.clocks.black ≤ 0 →
        game.gameOver = true ∧
        ∃ winner, game.result = some { winner := winner, reason := "timeout" }) := by
  obtain ⟨game0, hfound, hinv0, -⟩ :=
    createGameRequest_invariant E newChess games games' socketId config draws now id hcreate
      htime hinc
  obtain ⟨game, hg, -, hcases⟩ := handleAll_invariant E reqs id games' game0 hfound hinv0
  refine ⟨game, hg, ?_, ?_⟩
  · intro hlive
    rcases hcases with h | ⟨h, -⟩
    · exact h
    · rw [hlive] at h; exact absurd h (by simp)
  · intro hneg
    rcases hcases with h | h
    · omega
    · exact h

theorem createGameRequest_demo :
    createGameRequest demoEngine demoNewChess demoGames "c" demoConfig [1 / 10] 7000 =
      (putGame (demoGames ++ [("1900", demoCreated)]) "1900"
        { demoCreated with
          players := { white := some { id := "c", name := "Player 1" }, black := none } },
       some "1900") := by
  simp only [createGameRequest, createGame_demo]
  rfl

theorem clock_invariant_witness :
    ∃ game, getGame (handleAll demoEngine
        (putGame (demoGames ++ [("1900", demoCreated)]) "1900"
          { demoCreated with
            players := { white := some { id := "c", name := "Player 1" }, black := none } })
        demoCreatedTraffic) "1900" = some game ∧
      (game.gameOver = false → 0 < game.clocks.white ∧ 0 < game.clocks.black) ∧
      (game.clocks.white ≤ 0 ∨ game.clocks.black ≤ 0 →
        game.gameOver = true ∧
        ∃ winner, game.result = some { winner := winner, reason := "timeout" }) :=
  clock_invariant demoEngine demoNewChess demoGames _ "c" demoConfig [1 / 10] 7000 "1900"
    demoCreatedTraffic createGameRequest_demo
    (by intro t ht; simp [demoConfig] at ht; omega)
    (by intro i hi; simp [demoConfig] at hi; omega)

end CreationTheorems

/-! ## Theorems: outcome mapping, repeated debits, distinct positions -/

section OutcomeTheorems

variable {P M R : Type}

/-- The mapping of lines 270-283: checkmate gives the side not to move as
winner; otherwise, as soon as `isDraw()` holds, the reason is `'draw'`, whatever
`isStalemate()`, `isThreefoldRepetition()` and `isInsufficientMaterial()` say. -/
theorem gameOverResult_order (E : RulesEngine P M R) (chess : P) (result : Option Result) :
    (E.isCheckmate chess = true →
      gameOverResult E chess result =
        some { winner := some (E.turn chess).other, reason := "checkmate" }) ∧
    (E.isCheckmate chess = false → E.isDraw chess = true →
      gameOverResult E chess result = some { winner := none, reason := "draw" }) := by
  constructor
  · intro h
    simp only [gameOverResult, h, if_true]
    cases E.turn chess <;> rfl
  · intro h1 h2
    simp [gameOverResult, h1, h2]

/-- C17 (the code at the failing input): in `demoLate` black plays a move the
engine accepts; the engine then reports the game over by threefold repetition
(`isThreefoldRepetition`, and with it `isDraw`, not `isCheckmate`). The session
is finished, but with reason `'draw'`, not `'repetition'`: `isDraw()` is tested
before the specific draw conditions. -/
theorem repetition_is_reported_as_draw :
    demoEngine.isGameOver 4 = true ∧ demoEngine.isCheckmate 4 = false ∧
      demoEngine.isThreefoldRepetition 4 = true ∧ demoEngine.isDraw 4 = true ∧
      (handle demoEngine [("1234", demoLate)] demoDrawingMove).2 = .moved 2 ∧
      ∃ after, getGame (handle demoEngine [("1234", demoLate)] demoDrawingMove).1 "1234" =
          some after ∧
        after.chess = 4 ∧ after.gameOver = true ∧
        after.result = some { winner := none, reason := "draw" } :=
  ⟨rfl, rfl, rfl, rfl, rfl, _, rfl, rfl, rfl, rfl⟩

/-- C18 (the code at the failing input): in `demoNoIncrement` (no increment,
white's clock 300000, last move at `2000`) white sends a refused move at `3000`
and an accepted one at `4000`. The first attempt debits `3000 - 2000` and leaves
`lastMoveTime` at `2000`, the second debits `4000 - 2000`: 3000 ms are deducted
in all, the first second twice, where `4000 - 2000 = 2000` ms have passed. -/
theorem refused_attempt_is_charged_twice :
    (∃ mid, getGame (handleAll demoEngine [("1234", demoNoIncrement)]
          (demoTwoAttempts.take 1)) "1234" = some mid ∧
        mid.clocks.white = 300000 - (3000 - 2000) ∧ mid.lastMoveTime = some 2000 ∧
        mid.chess = 0) ∧
      ∃ after, getGame (handleAll demoEngine [("1234", demoNoIncrement)] demoTwoAttempts)
          "1234" = some after ∧
        after.chess = 1 ∧ after.lastMoveTime = some 4000 ∧
        after.clocks.white = 300000 - ((3000 - 2000) + (4000 - 2000)) ∧
        after.clocks.white ≠ 300000 - (4000 - 2000) :=
  ⟨⟨_, rfl, rfl, rfl, rfl⟩, _, rfl, rfl, rfl, rfl, by decide⟩

/-- C19 (the code at the failing input): the indices 0 and 1 do not yield two
different back-rank strings, they yield none: both calls throw. (Run on an
array whose slots hold `undefined`, the same statements do give two different
back ranks.) -/
theorem generateChess960Position_0_and_1 :
    generateChess960Position 0 = none ∧ generateChess960Position 1 = none ∧
      placePieces filledBackRank 0 ≠ placePieces filledBackRank 1 := by
  refine ⟨rfl, rfl, by decide⟩

end OutcomeTheorems

end ChessPlatform
